import Mathlib

/-!
Verification of the FTP client protocol engine (the `ftp` package of this
repository). Control-connection messages are modelled as `List Char` (the
protocol is ASCII, so one `Char` stands for one byte). Pure helpers of the
package are transcribed directly; the stateful `Connection` methods are
modelled as functions from a `Conn` value (transfer-type field plus scripted
outcomes for each kind of I/O effect) to a result, the successor `Conn`, and
the list of I/O actions performed, in order.
-/

namespace Ftp

/-- Error values of the package. `transport` stands for an opaque I/O error
coming from the network; `message` is the value built by `errorMessage`
(the attempted command together with the raw server response). -/
inductive Err where
  | transport (n : Nat)
  | message (command : String) (response : List Char)
deriving DecidableEq

/-! ## Wire framer: `readResponse` and its helpers, transcribed from the source. -/

/-- Go `strings.Split(msg, "\r\n")` on byte strings. -/
def splitCRLF : List Char → List (List Char)
  | [] => [[]]
  | '\r' :: '\n' :: rest => [] :: splitCRLF rest
  | c :: rest =>
    match splitCRLF rest with
    | [] => [[c]]
    | l :: ls => (c :: l) :: ls

/-- Source `isSingleLineResponse`: `len(msg) >= 4 && msg[3] == ' '`. -/
def isSingleLineResponse (msg : List Char) : Bool :=
  decide (4 ≤ msg.length) && (msg.getD 3 '\x00' == ' ')

/-- Source `endsInNewLine`. -/
def endsInNewLine (msg : List Char) : Bool :=
  if msg.length < 2 then false
  else (msg.getD (msg.length - 2) '\x00' == '\r') && (msg.getD (msg.length - 1) '\x00' == '\n')

def isCompleteSingleLineResponse (msg : List Char) : Bool :=
  isSingleLineResponse msg && endsInNewLine msg

/-- Source `isMultiLineResponse`: `len(msg) >= 4 && msg[3] == '-'`. -/
def isMultiLineResponse (msg : List Char) : Bool :=
  decide (4 ≤ msg.length) && (msg.getD 3 '\x00' == '-')

/-- Source `lastLineEndsInSameCodeAsFirstLine`: split at CR LF, compare the
second-to-last part against the first three bytes of the first part plus a
space. -/
def lastLineEndsInSameCodeAsFirstLine (msg : List Char) : Bool :=
  let lines := splitCRLF msg
  if lines.length < 3 then false
  else
    let first := lines.getD 0 []
    let last := lines.getD (lines.length - 2) []
    if first.length < 3 ∨ last.length < 4 then false
    else decide (last.take 4 = first.take 3 ++ [' '])

def isCompleteMultiLineResponse (msg : List Char) : Bool :=
  isMultiLineResponse msg && lastLineEndsInSameCodeAsFirstLine msg

def isCompleteResponse (msg : List Char) : Bool :=
  isCompleteSingleLineResponse msg || isCompleteMultiLineResponse msg

/-- Source `extractCode`: the first three bytes, or the whole message when it
has at most three bytes. -/
def extractCode (msg : List Char) : List Char :=
  if msg.length ≤ 3 then msg else msg.take 3

/-- One event delivered by the control socket to `readResponse`: either a
chunk of bytes from a successful `Read`, or a read error (for instance the
EOF produced when the server closes the connection). -/
inductive ReadEv where
  | chunk (bytes : List Char)
  | fail (e : Err)

/-- The accumulation loop of source `readResponse`/`readResponseInto`: append
each chunk, stop with the buffer once it is a complete response, stop with the
error as soon as a read fails. `none` means the loop is still waiting for more
data when the event list runs out (the Go code would block on `Read`). -/
def readResponseAux : List ReadEv → List Char → Option (List Char × Option Err)
  | [], _ => none
  | ReadEv.fail e :: _, acc => some (acc, some e)
  | ReadEv.chunk b :: rest, acc =>
    let acc2 := acc ++ b
    if isCompleteResponse acc2 then some (acc2, none) else readResponseAux rest acc2

def readResponse (reads : List ReadEv) : Option (List Char × Option Err) :=
  readResponseAux reads []

/-! ## Framing lemmas -/

theorem short_not_complete (msg : List Char) (h : msg.length < 4) :
    isCompleteResponse msg = false := by
  have h4 : ¬ (4 ≤ msg.length) := by omega
  simp [isCompleteResponse, isCompleteSingleLineResponse, isCompleteMultiLineResponse,
    isSingleLineResponse, isMultiLineResponse, h4]

theorem readResponseAux_short (chunks : List (List Char)) (e : Err) (acc : List Char)
    (h : (acc ++ chunks.flatten).length < 4) :
    readResponseAux (chunks.map ReadEv.chunk ++ [ReadEv.fail e]) acc =
      some (acc ++ chunks.flatten, some e) := by
  induction chunks generalizing acc with
  | nil => simp [readResponseAux]
  | cons l rest ih =>
    have hlen : (acc ++ l).length < 4 := by
      simp only [List.flatten_cons, List.length_append] at h ⊢
      omega
    have hnc : isCompleteResponse (acc ++ l) = false := short_not_complete _ hlen
    have hrec := ih (acc ++ l) (by
      simp only [List.flatten_cons, List.length_append] at h ⊢
      omega)
    simp only [List.map_cons, List.cons_append, readResponseAux, hnc, Bool.false_eq_true,
      if_false, List.flatten_cons]
    simpa [List.append_assoc] using hrec

theorem lastLine_spec (msg : List Char) (h : lastLineEndsInSameCodeAsFirstLine msg = true) :
    3 ≤ (splitCRLF msg).length ∧
    ((splitCRLF msg).getD ((splitCRLF msg).length - 2) []).take 4 =
      ((splitCRLF msg).getD 0 []).take 3 ++ [' '] := by
  simp only [lastLineEndsInSameCodeAsFirstLine] at h
  split at h
  · exact absurd h (by simp)
  · split at h
    · exact absurd h (by simp)
    · rename_i h1 h2
      exact ⟨by omega, of_decide_eq_true h⟩

/-- C1 (counterexample): a buffer whose 4th byte is a dash and whose
second-to-last CR-LF-separated segment starts with the first line's code plus
a space is judged complete even though the buffer does not end in CR LF. -/
theorem multiline_complete_without_crlf :
    ("211-a\r\n211 b\r\nx".toList).getD 3 '\x00' = '-' ∧
    isCompleteResponse ("211-a\r\n211 b\r\nx".toList) = true ∧
    endsInNewLine ("211-a\r\n211 b\r\nx".toList) = false := by
  decide

/-- C1 (amended): for every accumulated buffer whose 4th byte is a dash, the
framer judges the reply complete only when a later CR-LF-separated segment
(the second-to-last one) starts with the same 3-digit code as the first line
followed by a space; the buffer ending in CR LF is not checked. A line
starting with a different code and a dash is continuation text; in particular
"211-first\r\n212 other\r\n" is not complete. -/
theorem multiline_complete_requires_matching_code :
    (∀ msg : List Char, msg.getD 3 '\x00' = '-' → isCompleteResponse msg = true →
      ∃ i, 1 ≤ i ∧ i < (splitCRLF msg).length ∧
        ((splitCRLF msg).getD i []).take 4 = ((splitCRLF msg).getD 0 []).take 3 ++ [' ']) ∧
    isCompleteResponse ("211-first\r\n212 other\r\n".toList) = false := by
  constructor
  · intro msg h3 hc
    have hb : (msg.getD 3 '\x00' == ' ') = false := by
      rw [h3]; rfl
    have hsingle : isCompleteSingleLineResponse msg = false := by
      unfold isCompleteSingleLineResponse isSingleLineResponse
      rw [hb]
      simp
    have hmulti : isCompleteMultiLineResponse msg = true := by
      simp only [isCompleteResponse, hsingle, Bool.false_or] at hc
      exact hc
    have hlast : lastLineEndsInSameCodeAsFirstLine msg = true := by
      simp only [isCompleteMultiLineResponse, Bool.and_eq_true] at hmulti
      exact hmulti.2
    have hspec := lastLine_spec msg hlast
    exact ⟨(splitCRLF msg).length - 2, by omega, by omega, hspec.2⟩
  · decide

/-- C1 witness: instantiation at the spec's multi-line example. -/
theorem multiline_complete_requires_matching_code_witness :
    (∃ i, 1 ≤ i ∧ i < (splitCRLF ("211-first\r\ncontinuation\r\n211 second\r\n".toList)).length ∧
      ((splitCRLF ("211-first\r\ncontinuation\r\n211 second\r\n".toList)).getD i []).take 4 =
        ((splitCRLF ("211-first\r\ncontinuation\r\n211 second\r\n".toList)).getD 0 []).take 3 ++ [' ']) ∧
    isCompleteResponse ("211-first\r\n212 other\r\n".toList) = false :=
  ⟨multiline_complete_requires_matching_code.1 _ (by decide) (by decide),
   multiline_complete_requires_matching_code.2⟩

/-- C2: a reply of fewer than 4 bytes is never judged complete, so the framer
keeps reading until the transport fails and that failure is reported as an
error; no code is silently returned for such a reply. -/
theorem short_reply_reported_as_error (chunks : List (List Char)) (e : Err)
    (h : chunks.flatten.length < 4) :
    (∀ msg : List Char, msg.length < 4 → isCompleteResponse msg = false) ∧
    readResponse (chunks.map ReadEv.chunk ++ [ReadEv.fail e]) =
      some (chunks.flatten, some e) := by
  refine ⟨short_not_complete, ?_⟩
  have := readResponseAux_short chunks e [] (by simpa using h)
  simpa [readResponse] using this

/-- C2 witness: a 2-byte reply followed by EOF surfaces the transport error. -/
theorem short_reply_reported_as_error_witness :
    (∀ msg : List Char, msg.length < 4 → isCompleteResponse msg = false) ∧
    readResponse (([("OK".toList)]).map ReadEv.chunk ++ [ReadEv.fail (Err.transport 3)]) =
      some (([("OK".toList)]).flatten, some (Err.transport 3)) :=
  short_reply_reported_as_error [("OK".toList)] (Err.transport 3) (by decide)

/-! ## Passive-address parsing: `getAddressOfPasvResponse`.

The source matches the reply against the regular expression
`.*\(([0-9]+,[0-9]+,[0-9]+,[0-9]+),([0-9]+),([0-9]+)\).*`. Inside the
parentheses the pattern is deterministic (maximal digit runs separated by
commas), modelled by `matchTupleAt`. The unanchored search with the greedy
leading `.*` (which does not cross a newline) picks, among the starting
positions of tuple matches, the last one on the first line that contains a
match; `findTuple` implements that selection. -/

/-- A maximal nonempty digit run (`[0-9]+`), returning it and the rest. -/
def matchNum (s : List Char) : Option (List Char × List Char) :=
  let ds := s.takeWhile Char.isDigit
  if ds.isEmpty then none else some (ds, s.dropWhile Char.isDigit)

def expectChar (ch : Char) : List Char → Option (List Char)
  | [] => none
  | c :: rest => if c = ch then some rest else none

/-- Matching `\(([0-9]+,[0-9]+,[0-9]+,[0-9]+),([0-9]+),([0-9]+)\)` at the head
of `s`; returns the three capture groups. -/
def matchTupleAt (s : List Char) : Option (List Char × List Char × List Char) :=
  (expectChar '(' s).bind fun s1 =>
  (matchNum s1).bind fun p1 =>
  (expectChar ',' p1.2).bind fun s2 =>
  (matchNum s2).bind fun p2 =>
  (expectChar ',' p2.2).bind fun s3 =>
  (matchNum s3).bind fun p3 =>
  (expectChar ',' p3.2).bind fun s4 =>
  (matchNum s4).bind fun p4 =>
  (expectChar ',' p4.2).bind fun s5 =>
  (matchNum s5).bind fun p5 =>
  (expectChar ',' p5.2).bind fun s6 =>
  (matchNum s6).bind fun p6 =>
  (expectChar ')' p6.2).map fun _ =>
    (p1.1 ++ ',' :: p2.1 ++ ',' :: p3.1 ++ ',' :: p4.1, p5.1, p6.1)

def tuplePositions (msg : List Char) : List Nat :=
  (List.range msg.length).filter (fun t => (matchTupleAt (msg.drop t)).isSome)

/-- Index of the last newline, if any. -/
def lastNLIndex : List Char → Option Nat
  | [] => none
  | c :: rest =>
    match lastNLIndex rest with
    | some i => some (i + 1)
    | none => if c = '\n' then some 0 else none

def lineStartOf (msg : List Char) (t : Nat) : Nat :=
  match lastNLIndex (msg.take t) with
  | some i => i + 1
  | none => 0

/-- The submatch chosen by Go's leftmost-first search for the regexp above:
the last tuple start on the line of the first tuple start. (The fall-back
branch is unreachable: the first tuple start always lies on its own line.) -/
def findTuple (msg : List Char) : Option (List Char × List Char × List Char) :=
  match tuplePositions msg with
  | [] => none
  | t0 :: _ =>
    let s := lineStartOf msg t0
    let lineEnd := s + ((msg.drop s).takeWhile (fun c => c ≠ '\n')).length
    match ((tuplePositions msg).filter (fun t => t < lineEnd)).getLast? with
    | some t => matchTupleAt (msg.drop t)
    | none => matchTupleAt (msg.drop t0)

/-- Go `strings.Replace(s, ",", ".", -1)`. -/
def replaceCommaDot (s : List Char) : List Char :=
  s.map (fun c => if c = ',' then '.' else c)

def digitsVal (s : List Char) : Nat :=
  s.foldl (fun a c => 10 * a + (c.toNat - 48)) 0

/-- Go `strconv.Atoi` with its error discarded, as the source does on the
regexp digit captures: non-numeric input yields 0, an int64 range error
yields the clamped maximum. -/
def atoiGo (s : List Char) : Nat :=
  if s ≠ [] ∧ s.all Char.isDigit = true then
    if digitsVal s < 2 ^ 63 then digitsVal s else 2 ^ 63 - 1
  else 0

/-- Go two's-complement `int` (64-bit) value of a `Nat`. -/
def wrap64 (n : Nat) : Int :=
  (((n + 2 ^ 63) % 2 ^ 64 : Nat) : Int) - 2 ^ 63

/-- Go `strconv.Itoa`. -/
def itoaInt (i : Int) : List Char :=
  if i < 0 then '-' :: Nat.toDigits 10 i.natAbs else Nat.toDigits 10 i.toNat

/-- Source `getAddressOfPasvResponse`: locate the parenthesized 6-tuple,
replace the commas of the host quad with dots, and append the port
`256*highPort + lowPort` (Go int arithmetic, Atoi errors ignored). -/
def getAddressOfPasvResponse (msg : List Char) : Except Err (List Char) :=
  match findTuple msg with
  | none => Except.error (Err.message "address extraction" msg)
  | some (g1, g2, g3) =>
    let ip := replaceCommaDot g1
    let port := itoaInt (wrap64 (256 * atoiGo g2 + atoiGo g3))
    Except.ok (ip ++ ':' :: port)

/-! ## Lemmas about the passive-address parser -/

theorem mem_of_getLast?_eq {α : Type} {l : List α} {a : α} (h : l.getLast? = some a) :
    a ∈ l := by
  obtain ⟨hne, rfl⟩ := List.mem_getLast?_eq_getLast (show a ∈ l.getLast? from by rw [h]; rfl)
  exact List.getLast_mem hne

theorem matchNum_digits (s : List Char) (p : List Char × List Char)
    (h : matchNum s = some p) : p.1 ≠ [] ∧ p.1.all Char.isDigit = true := by
  simp only [matchNum] at h
  split at h
  · exact absurd h (by simp)
  · rename_i hne
    obtain rfl : (s.takeWhile Char.isDigit, s.dropWhile Char.isDigit) = p := by
      simpa using h
    refine ⟨by simpa [List.isEmpty_iff] using hne, ?_⟩
    rw [List.all_eq_true]
    intro c hc
    exact List.mem_takeWhile_imp hc

theorem matchTupleAt_struct (s g1 g2 g3 : List Char)
    (h : matchTupleAt s = some (g1, g2, g3)) :
    ∃ d1 d2 d3 d4,
      g1 = d1 ++ ',' :: d2 ++ ',' :: d3 ++ ',' :: d4 ∧
      (d1.all Char.isDigit = true ∧ d2.all Char.isDigit = true ∧
        d3.all Char.isDigit = true ∧ d4.all Char.isDigit = true) ∧
      (g2 ≠ [] ∧ g2.all Char.isDigit = true) ∧
      (g3 ≠ [] ∧ g3.all Char.isDigit = true) := by
  simp only [matchTupleAt, Option.bind_eq_some, Option.map_eq_some'] at h
  obtain ⟨s1, hs1, p1, hp1, s2, hs2, p2, hp2, s3, hs3, p3, hp3, s4, hs4, p4, hp4,
    s5, hs5, p5, hp5, s6, hs6, p6, hp6, u, hu, heq⟩ := h
  simp only [Prod.mk.injEq] at heq
  obtain ⟨h1, h2, h3⟩ := heq
  subst h1; subst h2; subst h3
  obtain ⟨hne1, hd1⟩ := matchNum_digits _ _ hp1
  obtain ⟨hne2, hd2⟩ := matchNum_digits _ _ hp2
  obtain ⟨hne3, hd3⟩ := matchNum_digits _ _ hp3
  obtain ⟨hne4, hd4⟩ := matchNum_digits _ _ hp4
  obtain ⟨hne5, hd5⟩ := matchNum_digits _ _ hp5
  obtain ⟨hne6, hd6⟩ := matchNum_digits _ _ hp6
  exact ⟨p1.1, p2.1, p3.1, p4.1, rfl, ⟨hd1, hd2, hd3, hd4⟩, ⟨hne5, hd5⟩, ⟨hne6, hd6⟩⟩

theorem matchTupleAt_nil : matchTupleAt [] = none := rfl

theorem tuplePositions_mem (msg : List Char) (t : Nat)
    (h : (matchTupleAt (msg.drop t)).isSome = true) : t ∈ tuplePositions msg := by
  have ht : t < msg.length := by
    by_contra hge
    have hnil : msg.drop t = [] := List.drop_eq_nil_of_le (by omega)
    rw [hnil, matchTupleAt_nil] at h
    exact absurd h (by simp)
  exact List.mem_filter.2 ⟨List.mem_range.2 ht, h⟩

theorem findTuple_sound (msg : List Char) (g : List Char × List Char × List Char)
    (h : findTuple msg = some g) : ∃ t, matchTupleAt (msg.drop t) = some g := by
  simp only [findTuple] at h
  split at h
  · exact absurd h (by simp)
  · split at h
    · exact ⟨_, h⟩
    · exact ⟨_, h⟩

theorem findTuple_complete (msg : List Char) (t : Nat)
    (g : List Char × List Char × List Char)
    (h : matchTupleAt (msg.drop t) = some g) : ∃ gf, findTuple msg = some gf := by
  have hmem := tuplePositions_mem msg t (by rw [h]; rfl)
  have hne : tuplePositions msg ≠ [] := List.ne_nil_of_mem hmem
  simp only [findTuple]
  split
  · rename_i heq
    exact absurd heq hne
  · rename_i t0 tl heq
    split
    · rename_i t1 heq1
      have ht1 : t1 ∈ tuplePositions msg :=
        (List.mem_filter.1 (mem_of_getLast?_eq heq1)).1
      have hsome := (List.mem_filter.1 ht1).2
      obtain ⟨g1, hg1⟩ := Option.isSome_iff_exists.1 hsome
      exact ⟨g1, hg1⟩
    · have ht0 : t0 ∈ tuplePositions msg := by
        rw [heq]
        exact List.mem_cons_self t0 tl
      have hsome := (List.mem_filter.1 ht0).2
      obtain ⟨g1, hg1⟩ := Option.isSome_iff_exists.1 hsome
      exact ⟨g1, hg1⟩

theorem findTuple_none (msg : List Char)
    (h : ∀ t, t < msg.length → matchTupleAt (msg.drop t) = none) :
    findTuple msg = none := by
  have hpos : tuplePositions msg = [] := by
    rw [tuplePositions, List.filter_eq_nil_iff]
    intro t ht
    rw [h t (List.mem_range.1 ht)]
    simp
  simp [findTuple, hpos]

theorem replaceCommaDot_digits : ∀ l : List Char, l.all Char.isDigit = true →
    replaceCommaDot l = l
  | [], _ => rfl
  | c :: rest, h => by
    simp only [List.all_cons, Bool.and_eq_true] at h
    have hc : c ≠ ',' := by
      intro he
      rw [he] at h
      exact absurd h.1 (by decide)
    have hrec := replaceCommaDot_digits rest h.2
    simp only [replaceCommaDot, List.map_cons, if_neg hc] at hrec ⊢
    rw [hrec]

theorem replaceCommaDot_append (a b : List Char) :
    replaceCommaDot (a ++ b) = replaceCommaDot a ++ replaceCommaDot b := by
  simp [replaceCommaDot]

theorem replaceCommaDot_comma (b : List Char) :
    replaceCommaDot (',' :: b) = '.' :: replaceCommaDot b := by
  simp [replaceCommaDot]

theorem atoiGo_val (s : List Char) (h1 : s ≠ []) (h2 : s.all Char.isDigit = true)
    (h3 : digitsVal s < 2 ^ 63) : atoiGo s = digitsVal s := by
  unfold atoiGo
  rw [if_pos ⟨h1, h2⟩, if_pos h3]

theorem wrap64_small (n : Nat) (h : n < 2 ^ 63) : wrap64 n = (n : Int) := by
  unfold wrap64
  rw [Nat.mod_eq_of_lt (by omega)]
  push_cast
  omega

theorem itoaInt_natCast (n : Nat) : itoaInt (n : Int) = Nat.toDigits 10 n := by
  have h : ¬ ((n : Int) < 0) := by omega
  simp [itoaInt, h]

/-- C3: if the reply text contains the parenthesized 6-tuple pattern anywhere,
the parser finds a tuple occurring in the text and yields the dial target
`h1.h2.h3.h4:(p1*256+p2)` (for port values within int64); if the tuple pattern
is absent, it fails with the address-extraction error. The spec example
`227 Entering Passive Mode (127,0,0,1,200,13).` yields `127.0.0.1:51213`. -/
theorem pasv_address_parsing :
    (∀ msg : List Char, (∀ t, t < msg.length → matchTupleAt (msg.drop t) = none) →
      getAddressOfPasvResponse msg = Except.error (Err.message "address extraction" msg)) ∧
    (∀ (msg : List Char) (t : Nat) (g : List Char × List Char × List Char),
      matchTupleAt (msg.drop t) = some g → ∃ gf, findTuple msg = some gf) ∧
    (∀ msg g1 g2 g3 : List Char, findTuple msg = some (g1, g2, g3) →
      256 * digitsVal g2 + digitsVal g3 < 2 ^ 63 →
      (∃ t, matchTupleAt (msg.drop t) = some (g1, g2, g3)) ∧
      (∃ d1 d2 d3 d4, g1 = d1 ++ ',' :: d2 ++ ',' :: d3 ++ ',' :: d4 ∧
        getAddressOfPasvResponse msg = Except.ok
          (d1 ++ '.' :: d2 ++ '.' :: d3 ++ '.' :: d4 ++ ':' ::
            Nat.toDigits 10 (256 * digitsVal g2 + digitsVal g3)))) ∧
    getAddressOfPasvResponse ("227 Entering Passive Mode (127,0,0,1,200,13).\r\n".toList) =
      Except.ok ("127.0.0.1:51213".toList) := by
  refine ⟨?_, ?_, ?_, ?_⟩
  · intro msg h
    simp [getAddressOfPasvResponse, findTuple_none msg h]
  · intro msg t g h
    exact findTuple_complete msg t g h
  · intro msg g1 g2 g3 hfind hsmall
    obtain ⟨t, ht⟩ := findTuple_sound msg (g1, g2, g3) hfind
    obtain ⟨d1, d2, d3, d4, hshape, ⟨hd1, hd2, hd3, hd4⟩, ⟨hne2, hall2⟩, ⟨hne3, hall3⟩⟩ :=
      matchTupleAt_struct _ g1 g2 g3 ht
    refine ⟨⟨t, ht⟩, d1, d2, d3, d4, hshape, ?_⟩
    have hv2 : digitsVal g2 < 2 ^ 63 := by omega
    have hv3 : digitsVal g3 < 2 ^ 63 := by omega
    have hip : replaceCommaDot g1 = d1 ++ '.' :: d2 ++ '.' :: d3 ++ '.' :: d4 := by
      rw [hshape]
      rw [replaceCommaDot_append, replaceCommaDot_comma, replaceCommaDot_append,
        replaceCommaDot_comma, replaceCommaDot_append, replaceCommaDot_comma,
        replaceCommaDot_digits d1 hd1, replaceCommaDot_digits d2 hd2,
        replaceCommaDot_digits d3 hd3, replaceCommaDot_digits d4 hd4]
    have hport : itoaInt (wrap64 (256 * atoiGo g2 + atoiGo g3)) =
        Nat.toDigits 10 (256 * digitsVal g2 + digitsVal g3) := by
      rw [atoiGo_val g2 hne2 hall2 hv2, atoiGo_val g3 hne3 hall3 hv3,
        wrap64_small _ hsmall, itoaInt_natCast]
    simp [getAddressOfPasvResponse, hfind, hip, hport]
  · rfl

/-- C3 witness: the three conditional parts instantiated at concrete replies. -/
theorem pasv_address_parsing_witness :
    getAddressOfPasvResponse ("500 unknown\r\n".toList) =
      Except.error (Err.message "address extraction" ("500 unknown\r\n".toList)) ∧
    (∃ gf, findTuple ("227 (1,2,3,4,5,6)\r\n".toList) = some gf) ∧
    ((∃ t, matchTupleAt (("227 (1,2,3,4,5,6)\r\n".toList).drop t) =
        some ("1,2,3,4".toList, "5".toList, "6".toList)) ∧
      (∃ d1 d2 d3 d4, "1,2,3,4".toList = d1 ++ ',' :: d2 ++ ',' :: d3 ++ ',' :: d4 ∧
        getAddressOfPasvResponse ("227 (1,2,3,4,5,6)\r\n".toList) = Except.ok
          (d1 ++ '.' :: d2 ++ '.' :: d3 ++ '.' :: d4 ++ ':' ::
            Nat.toDigits 10 (256 * digitsVal ("5".toList) + digitsVal ("6".toList))))) :=
  ⟨pasv_address_parsing.1 _ (by decide),
   pasv_address_parsing.2.1 _ 4 ("1,2,3,4".toList, "5".toList, "6".toList) (by decide),
   pasv_address_parsing.2.2.1 _ _ _ _ (by decide) (by decide)⟩

/-! ## The `Connection` model.

A `Conn` holds the `transferType` field of the source `Connection` struct
together with scripted outcomes for every kind of I/O effect the methods
perform (control-connection writes, framed reads, data-connection dials,
byte copies, and data-connection closes), each consumed in order. Every
method returns its result, the successor `Conn`, and the list of I/O actions
it performed, in order. -/

/-- Response codes are strings in the source (`type responseCode string`,
produced by `extractCode`). -/
abbrev responseCode := List Char

/-- Modelled from the spec: the named `responseCode` constants are declared
in a part of the repository that is not in the sources; their values are the
spec's response-code table (service-ready-for-new-user=220, user-logged-in=230,
username-ok-need-password=331, command-ok=200, system-name=215,
file-action-completed=250, pathname-created=257, entering-passive-mode=227,
closing-data-connection=226, no-transfer-in-progress=225,
connection-closed-transfer-aborted=426, service-closing=221,
general/directory/file status=211/212/213). -/
def serviceReadyForNewUser : responseCode := "220".toList

def userLoggedIn_Proceed : responseCode := "230".toList

def userNameOK_NeedPassword : responseCode := "331".toList

def commandOk : responseCode := "200".toList

def systemName : responseCode := "215".toList

def fileActionCompleted : responseCode := "250".toList

def pathNameCreated : responseCode := "257".toList

def enteringPassiveMode : responseCode := "227".toList

def closingDataConnection : responseCode := "226".toList

def noTransferInProgress : responseCode := "225".toList

def connectionClosed_TransferAborter : responseCode := "426".toList

def serviceClosingControlConnection : responseCode := "221".toList

def systemStatusOrHelpReply : responseCode := "211".toList

def directoryStatus : responseCode := "212".toList

def fileStatus : responseCode := "213".toList

/-- Modelled from the spec: the `ok()` method on `responseCode` is declared in
a part of the repository that is not in the sources. Per the spec the transfer
path accepts the preliminary-positive code 150 with it and the
positive-completion codes 226/250 with the same check, so `ok` holds exactly
for codes whose first digit is 1 or 2. The theorems about the transfer
engine do not depend on this choice. -/
def codeOk (code : responseCode) : Bool :=
  code.headD '\x00' = '1' ∨ code.headD '\x00' = '2'

/-- Source transfer-type constants (`type transferType string`). -/
def transferASCII : String := "ASCII"

def transferBinary : String := "binary"

/-- The direction of the `io.Copy` call in a transfer. -/
inductive CopyDir where
  | fromDataConn
  | toDataConn
deriving DecidableEq

/-- One observable I/O action of a `Connection` method. -/
inductive Action where
  | sent (line : List Char)
  | received (r : Except Err (List Char))
  | dialedData (addr : List Char)
  | copiedData (dir : CopyDir)
  | closedData

/-- The `Connection` state plus the scripted environment: outcomes for each
`conn.Write` (`sends`), each framed `readResponse` (`recvs`), each data
connection `net.Dial` (`dials`), each `io.Copy` (`copies`) and each
`dataConn.Close` (`closes`). Transport-level failures are opaque: the script
holds only an error id (`Nat`), wrapped into `Err.transport` by the steps,
exactly as the Go I/O layer can never produce an `errorMessage` value. -/
structure Conn where
  transferType : String
  sends : List (Option Nat)
  recvs : List (Except Nat (List Char))
  dials : List (Option Nat)
  copies : List (Option Nat)
  closes : List (Option Nat)

def popO : List (Option Nat) → Option Nat × List (Option Nat)
  | [] => (none, [])
  | r :: rest => (r, rest)

def popR : List (Except Nat (List Char)) → Except Nat (List Char) × List (Except Nat (List Char))
  | [] => (Except.error 0, [])
  | r :: rest => (r, rest)

/-- Source `send`: join the words with single spaces, append CR LF, write. -/
def send (c : Conn) (words : List String) : Option Err × Conn × List Action :=
  let msg := (String.intercalate " " words).toList ++ ['\r', '\n']
  let p := popO c.sends
  (p.1.map Err.transport, { c with sends := p.2 }, [Action.sent msg])

/-- Source `sendWithoutEmptyString`. -/
def sendWithoutEmptyString (c : Conn) (cmd arg : String) : Option Err × Conn × List Action :=
  if arg = "" then send c [cmd] else send c [cmd, arg]

/-- Source `receive`: frame one reply (scripted here) and extract its code. -/
def receive (c : Conn) : Except Err (List Char × responseCode) × Conn × List Action :=
  match popR c.recvs with
  | (Except.error n, rest) =>
    (Except.error (Err.transport n), { c with recvs := rest },
      [Action.received (Except.error (Err.transport n))])
  | (Except.ok msg, rest) =>
    (Except.ok (msg, extractCode msg), { c with recvs := rest },
      [Action.received (Except.ok msg)])

/-- Source `executeGetResponse`: send, receive, and compare the code against
the expected one; on mismatch fail with `errorMessage(args[0], resp)`. -/
def executeGetResponse (c : Conn) (expectedCode : responseCode) (args : List String) :
    Except Err (List Char) × Conn × List Action :=
  match send c args with
  | (some e, c1, a1) => (Except.error e, c1, a1)
  | (none, c1, a1) =>
    match receive c1 with
    | (Except.error e, c2, a2) => (Except.error e, c2, a1 ++ a2)
    | (Except.ok (resp, code), c2, a2) =>
      if code = expectedCode then (Except.ok resp, c2, a1 ++ a2)
      else (Except.error (Err.message (args.headD "") resp), c2, a1 ++ a2)

/-- Source `execute`. -/
def execute (c : Conn) (success : responseCode) (args : List String) :
    Option Err × Conn × List Action :=
  match executeGetResponse c success args with
  | (Except.error e, c1, a1) => (some e, c1, a1)
  | (Except.ok _, c1, a1) => (none, c1, a1)

/-- Source `sendAndReceive`. -/
def sendAndReceive (c : Conn) (words : List String) :
    Except Err (List Char × responseCode) × Conn × List Action :=
  match send c words with
  | (some e, c1, a1) => (Except.error e, c1, a1)
  | (none, c1, a1) =>
    match receive c1 with
    | (r, c2, a2) => (r, c2, a1 ++ a2)

/-- The `net.Dial` step of `enterPassiveMode`; the data connection exists
(`Action.dialedData`) only when the dial succeeds. -/
def dialData (c : Conn) (addr : List Char) : Option Err × Conn × List Action :=
  match popO c.dials with
  | (some n, rest) => (some (Err.transport n), { c with dials := rest }, [])
  | (none, rest) => (none, { c with dials := rest }, [Action.dialedData addr])

/-- Source `enterPassiveMode`: execute `PASV`, parse the address, dial it. -/
def enterPassiveMode (c : Conn) : Except Err Unit × Conn × List Action :=
  match executeGetResponse c enteringPassiveMode ["PASV"] with
  | (Except.error e, c1, a1) => (Except.error e, c1, a1)
  | (Except.ok resp, c1, a1) =>
    match getAddressOfPasvResponse resp with
    | Except.error e => (Except.error e, c1, a1)
    | Except.ok addr =>
      match dialData c1 addr with
      | (some e, c2, a2) => (Except.error e, c2, a1 ++ a2)
      | (none, c2, a2) => (Except.ok (), c2, a1 ++ a2)

/-- The `io.Copy` step of a transfer. -/
def copyData (c : Conn) (dir : CopyDir) : Option Err × Conn × List Action :=
  let p := popO c.copies
  (p.1.map Err.transport, { c with copies := p.2 }, [Action.copiedData dir])

/-- The `dataConn.Close()` step of a transfer. -/
def closeData (c : Conn) : Option Err × Conn × List Action :=
  let p := popO c.closes
  (p.1.map Err.transport, { c with closes := p.2 }, [Action.closedData])

/-- Source `setTransferTypeTo`: skip when the tracked type already matches;
otherwise execute `TYPE symbol` and record the new type only on success. -/
def setTransferTypeTo (c : Conn) (t : String) (symbol : String) :
    Option Err × Conn × List Action :=
  if c.transferType = t then (none, c, [])
  else
    match execute c commandOk ["TYPE", symbol] with
    | (none, c1, a1) => (none, { c1 with transferType := t }, a1)
    | (some e, c1, a1) => (some e, c1, a1)

def setASCIITransfer (c : Conn) : Option Err × Conn × List Action :=
  setTransferTypeTo c transferASCII "A"

def setBinaryTransfer (c : Conn) : Option Err × Conn × List Action :=
  setTransferTypeTo c transferBinary "I"

/-- Source `Login`. -/
def Login (c : Conn) (user password : String) : Except Err Unit × Conn × List Action :=
  match send c ["USER", user] with
  | (some e, c1, a1) => (Except.error e, c1, a1)
  | (none, c1, a1) =>
    match receive c1 with
    | (Except.error e, c2, a2) => (Except.error e, c2, a1 ++ a2)
    | (Except.ok (resp, code), c2, a2) =>
      if code = userLoggedIn_Proceed then (Except.ok (), c2, a1 ++ a2)
      else if code = userNameOK_NeedPassword then
        match execute c2 userLoggedIn_Proceed ["PASS", password] with
        | (some e, c3, a3) => (Except.error e, c3, a1 ++ a2 ++ a3)
        | (none, c3, a3) => (Except.ok (), c3, a1 ++ a2 ++ a3)
      else (Except.error (Err.message "USER" resp), c2, a1 ++ a2)

/-- Source `Abort`. -/
def Abort (c : Conn) : Except Err Unit × Conn × List Action :=
  match sendAndReceive c ["ABOR"] with
  | (Except.error e, c1, a1) => (Except.error e, c1, a1)
  | (Except.ok (resp, code), c1, a1) =>
    if code = noTransferInProgress ∨ code = closingDataConnection then
      (Except.ok (), c1, a1)
    else if code = connectionClosed_TransferAborter then
      match receive c1 with
      | (Except.error e, c2, a2) => (Except.error e, c2, a1 ++ a2)
      | (Except.ok (resp2, code2), c2, a2) =>
        if code2 = closingDataConnection then (Except.ok (), c2, a1 ++ a2)
        else (Except.error (Err.message "ABOR" resp2), c2, a1 ++ a2)
    else (Except.error (Err.message "ABOR" resp), c1, a1)

/-- Source `Download`: binary mode, passive data connection, `RETR`, copy from
the data connection, close it (unconditionally on error paths, checked on the
success path), then the final confirmation. -/
def Download (c : Conn) (path : String) : Except Err Unit × Conn × List Action :=
  match setBinaryTransfer c with
  | (some e, c1, a1) => (Except.error e, c1, a1)
  | (none, c1, a1) =>
    match enterPassiveMode c1 with
    | (Except.error e, c2, a2) => (Except.error e, c2, a1 ++ a2)
    | (Except.ok _, c2, a2) =>
      match send c2 ["RETR", path] with
      | (some e, c3, a3) =>
        match closeData c3 with
        | (_, c4, a4) => (Except.error e, c4, a1 ++ a2 ++ a3 ++ a4)
      | (none, c3, a3) =>
        match receive c3 with
        | (Except.error e, c4, a4) =>
          match closeData c4 with
          | (_, c5, a5) => (Except.error e, c5, a1 ++ a2 ++ a3 ++ a4 ++ a5)
        | (Except.ok (resp, code), c4, a4) =>
          if codeOk code = false then
            match closeData c4 with
            | (_, c5, a5) =>
              (Except.error (Err.message "RETR" resp), c5, a1 ++ a2 ++ a3 ++ a4 ++ a5)
          else
            match copyData c4 CopyDir.fromDataConn with
            | (some e, c5, a5) =>
              match closeData c5 with
              | (_, c6, a6) => (Except.error e, c6, a1 ++ a2 ++ a3 ++ a4 ++ a5 ++ a6)
            | (none, c5, a5) =>
              match closeData c5 with
              | (some e, c6, a6) =>
                (Except.error e, c6, a1 ++ a2 ++ a3 ++ a4 ++ a5 ++ a6)
              | (none, c6, a6) =>
                match receive c6 with
                | (Except.error e, c7, a7) =>
                  (Except.error e, c7, a1 ++ a2 ++ a3 ++ a4 ++ a5 ++ a6 ++ a7)
                | (Except.ok (resp2, code2), c7, a7) =>
                  if codeOk code2 = false then
                    (Except.error (Err.message "RETR" resp2), c7,
                      a1 ++ a2 ++ a3 ++ a4 ++ a5 ++ a6 ++ a7)
                  else (Except.ok (), c7, a1 ++ a2 ++ a3 ++ a4 ++ a5 ++ a6 ++ a7)

/-- Source `upload` (the shared routine behind `Upload`): binary mode, passive
data connection, the given command, copy to the data connection, close it,
then the final confirmation. -/
def upload (c : Conn) (cmd : String) (path : String) : Except Err Unit × Conn × List Action :=
  match setBinaryTransfer c with
  | (some e, c1, a1) => (Except.error e, c1, a1)
  | (none, c1, a1) =>
    match enterPassiveMode c1 with
    | (Except.error e, c2, a2) => (Except.error e, c2, a1 ++ a2)
    | (Except.ok _, c2, a2) =>
      match sendWithoutEmptyString c2 cmd path with
      | (some e, c3, a3) =>
        match closeData c3 with
        | (_, c4, a4) => (Except.error e, c4, a1 ++ a2 ++ a3 ++ a4)
      | (none, c3, a3) =>
        match receive c3 with
        | (Except.error e, c4, a4) =>
          match closeData c4 with
          | (_, c5, a5) => (Except.error e, c5, a1 ++ a2 ++ a3 ++ a4 ++ a5)
        | (Except.ok (resp, code), c4, a4) =>
          if codeOk code = false then
            match closeData c4 with
            | (_, c5, a5) =>
              (Except.error (Err.message cmd resp), c5, a1 ++ a2 ++ a3 ++ a4 ++ a5)
          else
            match copyData c4 CopyDir.toDataConn with
            | (some e, c5, a5) =>
              match closeData c5 with
              | (_, c6, a6) => (Except.error e, c6, a1 ++ a2 ++ a3 ++ a4 ++ a5 ++ a6)
            | (none, c5, a5) =>
              match closeData c5 with
              | (some e, c6, a6) =>
                (Except.error e, c6, a1 ++ a2 ++ a3 ++ a4 ++ a5 ++ a6)
              | (none, c6, a6) =>
                match receive c6 with
                | (Except.error e, c7, a7) =>
                  (Except.error e, c7, a1 ++ a2 ++ a3 ++ a4 ++ a5 ++ a6 ++ a7)
                | (Except.ok (resp2, code2), c7, a7) =>
                  if codeOk code2 = false then
                    (Except.error (Err.message cmd resp2), c7,
                      a1 ++ a2 ++ a3 ++ a4 ++ a5 ++ a6 ++ a7)
                  else (Except.ok (), c7, a1 ++ a2 ++ a3 ++ a4 ++ a5 ++ a6 ++ a7)

/-- Source `Upload`. -/
def Upload (c : Conn) (path : String) : Except Err Unit × Conn × List Action :=
  upload c "STOR" path

/-! ## Action classifiers and bookkeeping lemmas for the transfer engine -/

def isCloseA : Action → Bool
  | Action.closedData => true
  | _ => false

def isDialA : Action → Bool
  | Action.dialedData _ => true
  | _ => false

def isCopyA : Action → Bool
  | Action.copiedData _ => true
  | _ => false

def isSentA : Action → Bool
  | Action.sent _ => true
  | _ => false

theorem popO_fst (l : List (Option Nat)) : (popO l).1 = l.headD none := by
  cases l <;> rfl

theorem send_cdc (c : Conn) (ws : List String) :
    (send c ws).2.2.countP isCloseA = 0 ∧ (send c ws).2.2.countP isDialA = 0 ∧
    (send c ws).2.2.countP isCopyA = 0 ∧
    (send c ws).2.1.copies = c.copies ∧ (send c ws).2.1.closes = c.closes := by
  simp [send, isCloseA, isDialA, isCopyA]

theorem receive_cdc (c : Conn) :
    (receive c).2.2.countP isCloseA = 0 ∧ (receive c).2.2.countP isDialA = 0 ∧
    (receive c).2.2.countP isCopyA = 0 ∧
    (receive c).2.1.copies = c.copies ∧ (receive c).2.1.closes = c.closes := by
  unfold receive
  split <;> simp [isCloseA, isDialA, isCopyA]

theorem executeGetResponse_cdc (c : Conn) (ec : responseCode) (args : List String) :
    (executeGetResponse c ec args).2.2.countP isCloseA = 0 ∧
    (executeGetResponse c ec args).2.2.countP isDialA = 0 ∧
    (executeGetResponse c ec args).2.2.countP isCopyA = 0 ∧
    (executeGetResponse c ec args).2.1.copies = c.copies ∧
    (executeGetResponse c ec args).2.1.closes = c.closes := by
  unfold executeGetResponse
  split
  · rename_i e c1 a1 h1
    have hs := send_cdc c args
    rw [h1] at hs
    exact hs
  · rename_i c1 a1 h1
    have hs := send_cdc c args
    rw [h1] at hs
    dsimp only at hs
    split
    · rename_i e c2 a2 h2
      have hr := receive_cdc c1
      rw [h2] at hr
      dsimp only at hr
      simp [List.countP_append, hs.1, hs.2.1, hs.2.2.1, hr.1, hr.2.1, hr.2.2.1,
        hr.2.2.2.1, hr.2.2.2.2, hs.2.2.2.1, hs.2.2.2.2]
    · rename_i resp code c2 a2 h2
      have hr := receive_cdc c1
      rw [h2] at hr
      dsimp only at hr
      split <;>
        simp [List.countP_append, hs.1, hs.2.1, hs.2.2.1, hr.1, hr.2.1, hr.2.2.1,
          hr.2.2.2.1, hr.2.2.2.2, hs.2.2.2.1, hs.2.2.2.2]

theorem execute_cdc (c : Conn) (ec : responseCode) (args : List String) :
    (execute c ec args).2.2.countP isCloseA = 0 ∧
    (execute c ec args).2.2.countP isDialA = 0 ∧
    (execute c ec args).2.2.countP isCopyA = 0 ∧
    (execute c ec args).2.1.copies = c.copies ∧
    (execute c ec args).2.1.closes = c.closes := by
  unfold execute
  split
  · rename_i e c1 a1 h1
    have he := executeGetResponse_cdc c ec args
    rw [h1] at he
    exact he
  · rename_i c1 a1 h1
    have he := executeGetResponse_cdc c ec args
    rw [h1] at he
    exact he

theorem setBinaryTransfer_cdc (c : Conn) :
    (setBinaryTransfer c).2.2.countP isCloseA = 0 ∧
    (setBinaryTransfer c).2.2.countP isDialA = 0 ∧
    (setBinaryTransfer c).2.2.countP isCopyA = 0 ∧
    (setBinaryTransfer c).2.1.copies = c.copies ∧
    (setBinaryTransfer c).2.1.closes = c.closes := by
  unfold setBinaryTransfer setTransferTypeTo
  split
  · simp
  · split
    · rename_i c1 a1 h1
      have he := execute_cdc c commandOk ["TYPE", "I"]
      rw [h1] at he
      dsimp only at he
      exact he
    · rename_i e c1 a1 h1
      have he := execute_cdc c commandOk ["TYPE", "I"]
      rw [h1] at he
      exact he

theorem dialData_cdc (c : Conn) (addr : List Char) :
    (dialData c addr).2.2.countP isCloseA = 0 ∧
    (dialData c addr).2.2.countP isCopyA = 0 ∧
    ((dialData c addr).1 = none → (dialData c addr).2.2.countP isDialA = 1) ∧
    (∀ e, (dialData c addr).1 = some e → (dialData c addr).2.2.countP isDialA = 0) ∧
    (dialData c addr).2.1.copies = c.copies ∧
    (dialData c addr).2.1.closes = c.closes := by
  unfold dialData
  split <;> simp [isCloseA, isDialA, isCopyA]

theorem enterPassiveMode_cdc (c : Conn) :
    (enterPassiveMode c).2.2.countP isCloseA = 0 ∧
    (enterPassiveMode c).2.2.countP isCopyA = 0 ∧
    ((enterPassiveMode c).1 = Except.ok () → (enterPassiveMode c).2.2.countP isDialA = 1) ∧
    (∀ e, (enterPassiveMode c).1 = Except.error e →
      (enterPassiveMode c).2.2.countP isDialA = 0) ∧
    (enterPassiveMode c).2.1.copies = c.copies ∧
    (enterPassiveMode c).2.1.closes = c.closes := by
  unfold enterPassiveMode
  split
  · rename_i e c1 a1 h1
    have he := executeGetResponse_cdc c enteringPassiveMode ["PASV"]
    rw [h1] at he
    dsimp only at he
    exact ⟨he.1, he.2.2.1, by simp, fun e2 h2 => he.2.1, he.2.2.2.1, he.2.2.2.2⟩
  · rename_i resp c1 a1 h1
    have he := executeGetResponse_cdc c enteringPassiveMode ["PASV"]
    rw [h1] at he
    dsimp only at he
    split
    · exact ⟨he.1, he.2.2.1, by simp, fun e2 h2 => he.2.1, he.2.2.2.1, he.2.2.2.2⟩
    · rename_i addr haddr
      split
      · rename_i e c2 a2 h2
        have hd := dialData_cdc c1 addr
        rw [h2] at hd
        dsimp only at hd
        refine ⟨?_, ?_, fun h3 => ?_, fun e2 h3 => ?_, ?_, ?_⟩ <;>
          simp_all [List.countP_append]
      · rename_i c2 a2 h2
        have hd := dialData_cdc c1 addr
        rw [h2] at hd
        dsimp only at hd
        refine ⟨?_, ?_, fun h3 => ?_, fun e2 h3 => ?_, ?_, ?_⟩ <;>
          simp_all [List.countP_append]

theorem closeData_cdc (c : Conn) :
    (closeData c).2.2.countP isCloseA = 1 ∧ (closeData c).2.2.countP isDialA = 0 ∧
    (closeData c).2.2.countP isCopyA = 0 := by
  simp [closeData, isCloseA, isDialA, isCopyA]

theorem copyData_cdc (c : Conn) (d : CopyDir) :
    (copyData c d).2.2.countP isCloseA = 0 ∧ (copyData c d).2.2.countP isDialA = 0 ∧
    (copyData c d).2.2.countP isCopyA = 1 ∧
    (copyData c d).1 = (c.copies.headD none).map Err.transport := by
  simp [copyData, isCloseA, isDialA, isCopyA, popO_fst]

/-- C4: in every execution of `Download`, the data connection is closed
exactly as many times as it was opened (so exactly once whenever it was
opened, on every exit path, and never otherwise); and when the byte copy is
the step that fails, the error returned to the caller is that copy failure
(the close still having run), not a masked close failure. -/
theorem download_scoped_close (c : Conn) (path : String) :
    (Download c path).2.2.countP isCloseA = (Download c path).2.2.countP isDialA ∧
    (∀ n, (Download c path).2.2.countP isCopyA = 1 → c.copies.headD none = some n →
      (Download c path).1 = Except.error (Err.transport n)) := by
  unfold Download
  split
  · rename_i e c1 a1 h1
    have hs := setBinaryTransfer_cdc c
    rw [h1] at hs; dsimp only at hs
    refine ⟨by rw [hs.1, hs.2.1], fun n hcopy hh => ?_⟩
    rw [hs.2.2.1] at hcopy
    exact absurd hcopy (by simp)
  · rename_i c1 a1 h1
    have hs := setBinaryTransfer_cdc c
    rw [h1] at hs; dsimp only at hs
    split
    · rename_i e c2 a2 h2
      have hp := enterPassiveMode_cdc c1
      rw [h2] at hp; dsimp only at hp
      refine ⟨?_, fun n hcopy hh => ?_⟩
      · simp [List.countP_append, hs.1, hs.2.1, hp.1, hp.2.2.2.1 e rfl]
      · simp [List.countP_append, hs.2.2.1, hp.2.1] at hcopy
    · rename_i c2 a2 h2
      have hp := enterPassiveMode_cdc c1
      rw [h2] at hp; dsimp only at hp
      have hdial : a2.countP isDialA = 1 := hp.2.2.1 rfl
      have hcop2 : c2.copies = c.copies := by rw [hp.2.2.2.2.1, hs.2.2.2.1]
      split
      · rename_i e c3 a3 h3
        have hsend := send_cdc c2 ["RETR", path]
        rw [h3] at hsend; dsimp only at hsend
        rcases h4 : closeData c3 with ⟨r4, c4, a4⟩
        simp only [h4]
        have hcl := closeData_cdc c3
        rw [h4] at hcl; dsimp only at hcl
        refine ⟨?_, fun n hcopy hh => ?_⟩
        · simp [List.countP_append, hs.1, hs.2.1, hp.1, hdial, hsend.1, hsend.2.1,
            hcl.1, hcl.2.1]
        · simp [List.countP_append, hs.2.2.1, hp.2.1, hsend.2.2.1, hcl.2.2] at hcopy
      · rename_i c3 a3 h3
        have hsend := send_cdc c2 ["RETR", path]
        rw [h3] at hsend; dsimp only at hsend
        have hcop3 : c3.copies = c.copies := by rw [hsend.2.2.2.1, hcop2]
        split
        · rename_i e c4 a4 h4
          have hrecv := receive_cdc c3
          rw [h4] at hrecv; dsimp only at hrecv
          rcases h5 : closeData c4 with ⟨r5, c5, a5⟩
          simp only [h5]
          have hcl := closeData_cdc c4
          rw [h5] at hcl; dsimp only at hcl
          refine ⟨?_, fun n hcopy hh => ?_⟩
          · simp [List.countP_append, hs.1, hs.2.1, hp.1, hdial, hsend.1, hsend.2.1,
              hrecv.1, hrecv.2.1, hcl.1, hcl.2.1]
          · simp [List.countP_append, hs.2.2.1, hp.2.1, hsend.2.2.1, hrecv.2.2.1,
              hcl.2.2] at hcopy
        · rename_i resp code c4 a4 h4
          have hrecv := receive_cdc c3
          rw [h4] at hrecv; dsimp only at hrecv
          have hcop4 : c4.copies = c.copies := by rw [hrecv.2.2.2.1, hcop3]
          split
          · rcases h5 : closeData c4 with ⟨r5, c5, a5⟩
            simp only [h5]
            have hcl := closeData_cdc c4
            rw [h5] at hcl; dsimp only at hcl
            refine ⟨?_, fun n hcopy hh => ?_⟩
            · simp [List.countP_append, hs.1, hs.2.1, hp.1, hdial, hsend.1, hsend.2.1,
                hrecv.1, hrecv.2.1, hcl.1, hcl.2.1]
            · simp [List.countP_append, hs.2.2.1, hp.2.1, hsend.2.2.1, hrecv.2.2.1,
                hcl.2.2] at hcopy
          · split
            · rename_i e c5 a5 h5
              have hcp := copyData_cdc c4 CopyDir.fromDataConn
              rw [h5] at hcp; dsimp only at hcp
              rcases h6 : closeData c5 with ⟨r6, c6, a6⟩
              simp only [h6]
              have hcl := closeData_cdc c5
              rw [h6] at hcl; dsimp only at hcl
              refine ⟨?_, fun n hcopy hh => ?_⟩
              · simp [List.countP_append, hs.1, hs.2.1, hp.1, hdial, hsend.1,
                  hsend.2.1, hrecv.1, hrecv.2.1, hcp.1, hcp.2.1, hcl.1, hcl.2.1]
              · rw [hcop4, hh] at hcp
                have he : e = Err.transport n := by
                  have := hcp.2.2.2
                  simp [Option.map_some] at this
                  exact this
                rw [he]
            · rename_i c5 a5 h5
              have hcp := copyData_cdc c4 CopyDir.fromDataConn
              rw [h5] at hcp; dsimp only at hcp
              have hcopnone : c4.copies.headD none = none := by
                have := hcp.2.2.2
                cases hx : c4.copies.headD none with
                | none => rfl
                | some m => rw [hx] at this; simp [Option.map_some] at this
              split
              · rename_i e c6 a6 h6
                have hcl := closeData_cdc c5
                rw [h6] at hcl; dsimp only at hcl
                refine ⟨?_, fun n hcopy hh => ?_⟩
                · simp [List.countP_append, hs.1, hs.2.1, hp.1, hdial, hsend.1,
                    hsend.2.1, hrecv.1, hrecv.2.1, hcp.1, hcp.2.1, hcl.1, hcl.2.1]
                · rw [hcop4, hh] at hcopnone
                  exact absurd hcopnone (by simp)
              · rename_i c6 a6 h6
                have hcl := closeData_cdc c5
                rw [h6] at hcl; dsimp only at hcl
                split
                · rename_i e c7 a7 h7
                  have hr2 := receive_cdc c6
                  rw [h7] at hr2; dsimp only at hr2
                  refine ⟨?_, fun n hcopy hh => ?_⟩
                  · simp [List.countP_append, hs.1, hs.2.1, hp.1, hdial, hsend.1,
                      hsend.2.1, hrecv.1, hrecv.2.1, hcp.1, hcp.2.1, hcl.1, hcl.2.1,
                      hr2.1, hr2.2.1]
                  · rw [hcop4, hh] at hcopnone
                    exact absurd hcopnone (by simp)
                · rename_i resp2 code2 c7 a7 h7
                  have hr2 := receive_cdc c6
                  rw [h7] at hr2; dsimp only at hr2
                  split <;>
                  · refine ⟨?_, fun n hcopy hh => ?_⟩
                    · simp [List.countP_append, hs.1, hs.2.1, hp.1, hdial, hsend.1,
                        hsend.2.1, hrecv.1, hrecv.2.1, hcp.1, hcp.2.1, hcl.1, hcl.2.1,
                        hr2.1, hr2.2.1]
                    · rw [hcop4, hh] at hcopnone
                      exact absurd hcopnone (by simp)

/-- A concrete environment for exercising `Download` with a failing byte copy
(copy error id 7) and a data-connection close that would also fail (id 9). -/
def dlEnv : Conn :=
  { transferType := transferBinary
  , sends := [none, none]
  , recvs := [Except.ok ("227 =(1,2,3,4,5,6)\r\n".toList), Except.ok ("150 ok\r\n".toList)]
  , dials := [none]
  , copies := [some 7]
  , closes := [some 9] }

/-- C4 witness: with the copy failing (id 7) and the close also primed to
fail (id 9), the data connection is still closed exactly once and the
returned error is the copy failure, not the close failure. -/
theorem download_scoped_close_witness :
    (Download dlEnv "f").2.2.countP isCloseA = (Download dlEnv "f").2.2.countP isDialA ∧
    (Download dlEnv "f").1 = Except.error (Err.transport 7) :=
  ⟨(download_scoped_close dlEnv "f").1,
   (download_scoped_close dlEnv "f").2 7 (by rfl) (by rfl)⟩

/-! ## Login, Abort, and transfer-type switching -/

theorem send_sent_count (c : Conn) (ws : List String) :
    (send c ws).2.2.countP isSentA = 1 := by
  simp [send, isSentA]

theorem receive_sent_count (c : Conn) : (receive c).2.2.countP isSentA = 0 := by
  unfold receive
  split <;> simp [isSentA]

theorem executeGetResponse_sent_count (c : Conn) (ec : responseCode) (args : List String) :
    (executeGetResponse c ec args).2.2.countP isSentA = 1 := by
  unfold executeGetResponse
  split
  · rename_i e c1 a1 h1
    have hs := send_sent_count c args
    rw [h1] at hs
    exact hs
  · rename_i c1 a1 h1
    have hs := send_sent_count c args
    rw [h1] at hs; dsimp only at hs
    split
    · rename_i e c2 a2 h2
      have hr := receive_sent_count c1
      rw [h2] at hr; dsimp only at hr
      simp [List.countP_append, hs, hr]
    · rename_i resp code c2 a2 h2
      have hr := receive_sent_count c1
      rw [h2] at hr; dsimp only at hr
      split <;> simp [List.countP_append, hs, hr]

theorem execute_sent_count (c : Conn) (ec : responseCode) (args : List String) :
    (execute c ec args).2.2.countP isSentA = 1 := by
  unfold execute
  split
  · rename_i e c1 a1 h1
    have he := executeGetResponse_sent_count c ec args
    rw [h1] at he
    exact he
  · rename_i c1 a1 h1
    have he := executeGetResponse_sent_count c ec args
    rw [h1] at he
    exact he

theorem send_transferType (c : Conn) (ws : List String) :
    (send c ws).2.1.transferType = c.transferType := by
  simp [send]

theorem receive_transferType (c : Conn) :
    (receive c).2.1.transferType = c.transferType := by
  unfold receive
  split <;> simp

theorem executeGetResponse_transferType (c : Conn) (ec : responseCode) (args : List String) :
    (executeGetResponse c ec args).2.1.transferType = c.transferType := by
  unfold executeGetResponse
  split
  · rename_i e c1 a1 h1
    have hs := send_transferType c args
    rw [h1] at hs
    exact hs
  · rename_i c1 a1 h1
    have hs := send_transferType c args
    rw [h1] at hs; dsimp only at hs
    split
    · rename_i e c2 a2 h2
      have hr := receive_transferType c1
      rw [h2] at hr; dsimp only at hr
      rw [hr, hs]
    · rename_i resp code c2 a2 h2
      have hr := receive_transferType c1
      rw [h2] at hr; dsimp only at hr
      split <;> (dsimp only; rw [hr, hs])

theorem execute_transferType (c : Conn) (ec : responseCode) (args : List String) :
    (execute c ec args).2.1.transferType = c.transferType := by
  unfold execute
  split
  · rename_i e c1 a1 h1
    have he := executeGetResponse_transferType c ec args
    rw [h1] at he
    exact he
  · rename_i c1 a1 h1
    have he := executeGetResponse_transferType c ec args
    rw [h1] at he
    exact he

/-- C5: after `USER`, a 230 reply completes the login with no further send (in
particular no `PASS`); a 331 reply triggers exactly one `PASS` send and the
login succeeds iff the following reply carries 230 (otherwise the error names
`PASS`); any other reply code fails with an error naming `USER` and carrying
the raw server message. -/
theorem login_branching (c : Conn) (user password : String) (resp : List Char)
    (s1 : List (Option Nat)) (r1 : List (Except Nat (List Char)))
    (hs : c.sends = none :: s1) (hr : c.recvs = Except.ok resp :: r1) :
    (extractCode resp = userLoggedIn_Proceed →
      Login c user password =
        (Except.ok (), { c with sends := s1, recvs := r1 },
          [Action.sent ((String.intercalate " " ["USER", user]).toList ++ ['\r', '\n']),
           Action.received (Except.ok resp)])) ∧
    (∀ resp2 s2 r2, s1 = none :: s2 → r1 = Except.ok resp2 :: r2 →
      extractCode resp = userNameOK_NeedPassword →
      Login c user password =
        ((if extractCode resp2 = userLoggedIn_Proceed then Except.ok ()
          else Except.error (Err.message "PASS" resp2)),
         { c with sends := s2, recvs := r2 },
         [Action.sent ((String.intercalate " " ["USER", user]).toList ++ ['\r', '\n']),
          Action.received (Except.ok resp),
          Action.sent ((String.intercalate " " ["PASS", password]).toList ++ ['\r', '\n']),
          Action.received (Except.ok resp2)])) ∧
    (extractCode resp ≠ userLoggedIn_Proceed → extractCode resp ≠ userNameOK_NeedPassword →
      Login c user password =
        (Except.error (Err.message "USER" resp), { c with sends := s1, recvs := r1 },
          [Action.sent ((String.intercalate " " ["USER", user]).toList ++ ['\r', '\n']),
           Action.received (Except.ok resp)])) := by
  refine ⟨fun h230 => ?_, fun resp2 s2 r2 hs2 hr2 h331 => ?_, fun hn230 hn331 => ?_⟩
  · simp [Login, send, receive, popO, popR, hs, hr, h230]
  · have hne : userNameOK_NeedPassword ≠ userLoggedIn_Proceed := by decide
    by_cases hc : extractCode resp2 = userLoggedIn_Proceed <;>
      simp [Login, execute, executeGetResponse, send, receive, popO, popR, hs, hr, hs2, hr2,
        h331, hne, hc]
  · simp [Login, send, receive, popO, popR, hs, hr, hn230, hn331]

/-- C5 witness: the 331-then-230 path at a concrete environment. -/
theorem login_branching_witness :
    Login
      { transferType := transferASCII, sends := [none, none],
        recvs := [Except.ok ("331 need password\r\n".toList),
                  Except.ok ("230 logged in\r\n".toList)],
        dials := [], copies := [], closes := [] } "alice" "secret" =
      ((if extractCode ("230 logged in\r\n".toList) = userLoggedIn_Proceed then Except.ok ()
        else Except.error (Err.message "PASS" ("230 logged in\r\n".toList))),
       { transferType := transferASCII, sends := [], recvs := [],
         dials := [], copies := [], closes := [] },
       [Action.sent ((String.intercalate " " ["USER", "alice"]).toList ++ ['\r', '\n']),
        Action.received (Except.ok ("331 need password\r\n".toList)),
        Action.sent ((String.intercalate " " ["PASS", "secret"]).toList ++ ['\r', '\n']),
        Action.received (Except.ok ("230 logged in\r\n".toList))]) :=
  (login_branching _ "alice" "secret" ("331 need password\r\n".toList) [none]
      [Except.ok ("230 logged in\r\n".toList)] rfl rfl).2.1
    ("230 logged in\r\n".toList) [] [] rfl rfl (by decide)

/-- C6: after `ABOR`, a 225 or 226 reply is success; a 426 reply causes
exactly one more reply to be read, and the abort succeeds iff that second
reply carries 226, otherwise the error names `ABOR`; any other first reply
fails with an error naming `ABOR` and the raw server message. -/
theorem abort_two_phase (c : Conn) (resp : List Char)
    (s1 : List (Option Nat)) (r1 : List (Except Nat (List Char)))
    (hs : c.sends = none :: s1) (hr : c.recvs = Except.ok resp :: r1) :
    (extractCode resp = noTransferInProgress ∨ extractCode resp = closingDataConnection →
      Abort c = (Except.ok (), { c with sends := s1, recvs := r1 },
        [Action.sent ((String.intercalate " " ["ABOR"]).toList ++ ['\r', '\n']),
         Action.received (Except.ok resp)])) ∧
    (∀ resp2 r2, r1 = Except.ok resp2 :: r2 →
      extractCode resp = connectionClosed_TransferAborter →
      Abort c =
        ((if extractCode resp2 = closingDataConnection then Except.ok ()
          else Except.error (Err.message "ABOR" resp2)),
         { c with sends := s1, recvs := r2 },
         [Action.sent ((String.intercalate " " ["ABOR"]).toList ++ ['\r', '\n']),
          Action.received (Except.ok resp), Action.received (Except.ok resp2)])) ∧
    (extractCode resp ≠ noTransferInProgress → extractCode resp ≠ closingDataConnection →
      extractCode resp ≠ connectionClosed_TransferAborter →
      Abort c = (Except.error (Err.message "ABOR" resp),
        { c with sends := s1, recvs := r1 },
        [Action.sent ((String.intercalate " " ["ABOR"]).toList ++ ['\r', '\n']),
         Action.received (Except.ok resp)])) := by
  refine ⟨fun hok => ?_, fun resp2 r2 hr2 h426 => ?_, fun hn1 hn2 hn3 => ?_⟩
  · simp [Abort, sendAndReceive, send, receive, popO, popR, hs, hr, hok]
  · have hne1 : connectionClosed_TransferAborter ≠ noTransferInProgress := by decide
    have hne2 : connectionClosed_TransferAborter ≠ closingDataConnection := by decide
    by_cases hc : extractCode resp2 = closingDataConnection <;>
      simp [Abort, sendAndReceive, send, receive, popO, popR, hs, hr, hr2, h426,
        hne1, hne2, hc]
  · simp [Abort, sendAndReceive, send, receive, popO, popR, hs, hr, hn1, hn2, hn3]

/-- C6 witness: the 426-then-226 path at a concrete environment. -/
theorem abort_two_phase_witness :
    Abort
      { transferType := transferASCII, sends := [none],
        recvs := [Except.ok ("426 Connection closed; transfer aborted\r\n".toList),
                  Except.ok ("226 Closing data connection\r\n".toList)],
        dials := [], copies := [], closes := [] } =
      ((if extractCode ("226 Closing data connection\r\n".toList) = closingDataConnection then
          Except.ok ()
        else Except.error (Err.message "ABOR" ("226 Closing data connection\r\n".toList))),
       { transferType := transferASCII, sends := [], recvs := [],
         dials := [], copies := [], closes := [] },
       [Action.sent ((String.intercalate " " ["ABOR"]).toList ++ ['\r', '\n']),
        Action.received (Except.ok ("426 Connection closed; transfer aborted\r\n".toList)),
        Action.received (Except.ok ("226 Closing data connection\r\n".toList))]) :=
  (abort_two_phase _ ("426 Connection closed; transfer aborted\r\n".toList) []
      [Except.ok ("226 Closing data connection\r\n".toList)] rfl rfl).2.1
    ("226 Closing data connection\r\n".toList) [] rfl (by decide)

/-- C7: starting from a connection whose tracked type is not Binary, calling
the Binary setter twice in a row (with the `TYPE` exchange succeeding) sends
`TYPE I` on the first call, records Binary as the tracked type, and the second
call performs no I/O at all, so `TYPE I` is issued exactly once. -/
theorem binary_setter_idempotent (c : Conn) (resp : List Char)
    (s1 : List (Option Nat)) (r1 : List (Except Nat (List Char)))
    (ht : c.transferType ≠ transferBinary)
    (hs : c.sends = none :: s1) (hr : c.recvs = Except.ok resp :: r1)
    (hcode : extractCode resp = commandOk) :
    setBinaryTransfer c =
      (none, { c with transferType := transferBinary, sends := s1, recvs := r1 },
        [Action.sent ((String.intercalate " " ["TYPE", "I"]).toList ++ ['\r', '\n']),
         Action.received (Except.ok resp)]) ∧
    setBinaryTransfer { c with transferType := transferBinary, sends := s1, recvs := r1 } =
      (none, { c with transferType := transferBinary, sends := s1, recvs := r1 }, []) ∧
    ([Action.sent ((String.intercalate " " ["TYPE", "I"]).toList ++ ['\r', '\n']),
      Action.received (Except.ok resp)] ++ ([] : List Action)).countP isSentA = 1 := by
  refine ⟨?_, ?_, by simp [isSentA]⟩
  · simp [setBinaryTransfer, setTransferTypeTo, execute, executeGetResponse, send, receive,
      popO, popR, hs, hr, hcode, ht]
  · simp [setBinaryTransfer, setTransferTypeTo]

/-- C7 witness. -/
theorem binary_setter_idempotent_witness :
    setBinaryTransfer
      { transferType := transferASCII, sends := [none],
        recvs := [Except.ok ("200 Type set to I\r\n".toList)],
        dials := [], copies := [], closes := [] } =
      (none, { transferType := transferBinary, sends := [], recvs := [],
               dials := [], copies := [], closes := [] },
        [Action.sent ((String.intercalate " " ["TYPE", "I"]).toList ++ ['\r', '\n']),
         Action.received (Except.ok ("200 Type set to I\r\n".toList))]) ∧
    setBinaryTransfer
      { transferType := transferBinary, sends := [], recvs := [],
        dials := [], copies := [], closes := [] } =
      (none, { transferType := transferBinary, sends := [], recvs := [],
               dials := [], copies := [], closes := [] }, []) ∧
    ([Action.sent ((String.intercalate " " ["TYPE", "I"]).toList ++ ['\r', '\n']),
      Action.received (Except.ok ("200 Type set to I\r\n".toList))] ++
        ([] : List Action)).countP isSentA = 1 :=
  binary_setter_idempotent _ ("200 Type set to I\r\n".toList) [] [] (by decide) rfl rfl
    (by decide)

/-- C9: the tracked `transferType` is updated exactly when the `TYPE` exchange
succeeds; on failure it is unchanged, so a subsequent call for the same type
issues the `TYPE` command again (one control-connection send) instead of
skipping it. -/
theorem transferType_updated_only_on_success (c : Conn) (t symbol : String) :
    (∀ e, (setTransferTypeTo c t symbol).1 = some e →
      (setTransferTypeTo c t symbol).2.1.transferType = c.transferType ∧
      (setTransferTypeTo (setTransferTypeTo c t symbol).2.1 t symbol).2.2.countP isSentA = 1) ∧
    ((setTransferTypeTo c t symbol).1 = none →
      (setTransferTypeTo c t symbol).2.1.transferType = t) := by
  by_cases hskip : c.transferType = t
  · refine ⟨fun e he => ?_, fun _ => ?_⟩
    · rw [setTransferTypeTo, if_pos hskip] at he
      exact absurd he (by simp)
    · rw [setTransferTypeTo, if_pos hskip]
      exact hskip
  · rcases hexe : execute c commandOk ["TYPE", symbol] with ⟨r1, c1, a1⟩
    have htt : c1.transferType = c.transferType := by
      have h := execute_transferType c commandOk ["TYPE", symbol]
      rw [hexe] at h
      exact h
    have hmain := setTransferTypeTo.eq_def c t symbol
    rw [if_neg hskip, hexe] at hmain
    rcases r1 with _ | e1
    · dsimp only at hmain
      refine ⟨fun e he => ?_, fun _ => ?_⟩
      · rw [hmain] at he
        exact absurd he (by simp)
      · rw [hmain]
    · dsimp only at hmain
      refine ⟨fun e he => ⟨?_, ?_⟩, fun hn => ?_⟩
      · rw [hmain]
        exact htt
      · rw [hmain]
        dsimp only
        have hne1 : c1.transferType ≠ t := by
          rw [htt]
          exact hskip
        rcases hexe2 : execute c1 commandOk ["TYPE", symbol] with ⟨r2, c2, a2⟩
        have hcount := execute_sent_count c1 commandOk ["TYPE", symbol]
        rw [hexe2] at hcount
        dsimp only at hcount
        have hmain2 := setTransferTypeTo.eq_def c1 t symbol
        rw [if_neg hne1, hexe2] at hmain2
        rcases r2 with _ | e2 <;> dsimp only at hmain2 <;> rw [hmain2] <;> exact hcount
      · rw [hmain] at hn
        exact absurd hn (by simp)

/-- A concrete environment whose `TYPE` exchange fails with code 500. -/
def typeFailEnv : Conn :=
  { transferType := transferASCII
  , sends := [none, none]
  , recvs := [Except.ok ("500 bad\r\n".toList), Except.ok ("500 bad\r\n".toList)]
  , dials := [], copies := [], closes := [] }

/-- C9 witness: after a failed `TYPE` exchange the tracked type is unchanged
and a repeat call issues `TYPE` (one send) again. -/
theorem transferType_updated_only_on_success_witness :
    (setTransferTypeTo typeFailEnv transferBinary "I").2.1.transferType =
      typeFailEnv.transferType ∧
    (setTransferTypeTo (setTransferTypeTo typeFailEnv transferBinary "I").2.1
      transferBinary "I").2.2.countP isSentA = 1 :=
  (transferType_updated_only_on_success typeFailEnv transferBinary "I").1
    (Err.message "TYPE" ("500 bad\r\n".toList)) (by rfl)

/-! ## Upload versus Download (C8)

`relabelAction`/`relabelErr` rename the command word RETR to STOR in the sent
line and in protocol errors and flip the copy direction; they leave every
other action and error unchanged. -/

def relabelAction : Action → Action
  | Action.sent l =>
    Action.sent (if l.take 4 = "RETR".toList then "STOR".toList ++ l.drop 4 else l)
  | Action.copiedData _ => Action.copiedData CopyDir.toDataConn
  | a => a

def relabelErr : Err → Err
  | Err.message cmd resp =>
    if cmd = "RETR" then Err.message "STOR" resp else Err.message cmd resp
  | e => e

def relabelResult : Except Err Unit → Except Err Unit
  | Except.error e => Except.error (relabelErr e)
  | r => r

theorem map_relabel_send (c : Conn) (ws : List String)
    (h : ((String.intercalate " " ws).toList ++ ['\r', '\n']).take 4 ≠ "RETR".toList) :
    ((send c ws).2.2).map relabelAction = (send c ws).2.2 := by
  simp only [send, List.map_cons, List.map_nil, relabelAction]
  rw [if_neg h]

theorem map_relabel_receive (c : Conn) :
    ((receive c).2.2).map relabelAction = (receive c).2.2 := by
  unfold receive
  split <;> simp [relabelAction]

theorem map_relabel_egr (c : Conn) (ec : responseCode) (args : List String)
    (h : ((String.intercalate " " args).toList ++ ['\r', '\n']).take 4 ≠ "RETR".toList) :
    ((executeGetResponse c ec args).2.2).map relabelAction =
      (executeGetResponse c ec args).2.2 := by
  unfold executeGetResponse
  split
  · rename_i e c1 a1 h1
    have hm := map_relabel_send c args h
    rw [h1] at hm
    exact hm
  · rename_i c1 a1 h1
    have hm := map_relabel_send c args h
    rw [h1] at hm; dsimp only at hm
    split
    · rename_i e c2 a2 h2
      have hr := map_relabel_receive c1
      rw [h2] at hr; dsimp only at hr
      simp [List.map_append, hm, hr]
    · rename_i resp code c2 a2 h2
      have hr := map_relabel_receive c1
      rw [h2] at hr; dsimp only at hr
      split <;> simp [List.map_append, hm, hr]

theorem map_relabel_execute (c : Conn) (ec : responseCode) (args : List String)
    (h : ((String.intercalate " " args).toList ++ ['\r', '\n']).take 4 ≠ "RETR".toList) :
    ((execute c ec args).2.2).map relabelAction = (execute c ec args).2.2 := by
  unfold execute
  split
  · rename_i e c1 a1 h1
    have he := map_relabel_egr c ec args h
    rw [h1] at he
    exact he
  · rename_i c1 a1 h1
    have he := map_relabel_egr c ec args h
    rw [h1] at he
    exact he

theorem map_relabel_sbt (c : Conn) :
    ((setBinaryTransfer c).2.2).map relabelAction = (setBinaryTransfer c).2.2 := by
  unfold setBinaryTransfer setTransferTypeTo
  split
  · rfl
  · have hline : ((String.intercalate " " ["TYPE", "I"]).toList ++ ['\r', '\n']).take 4 ≠
        "RETR".toList := by decide
    split
    · rename_i c1 a1 h1
      have he := map_relabel_execute c commandOk ["TYPE", "I"] hline
      rw [h1] at he
      exact he
    · rename_i e c1 a1 h1
      have he := map_relabel_execute c commandOk ["TYPE", "I"] hline
      rw [h1] at he
      exact he

theorem dialData_actions_relabel (c : Conn) (addr : List Char) :
    ((dialData c addr).2.2).map relabelAction = (dialData c addr).2.2 := by
  unfold dialData
  split <;> simp [relabelAction]

theorem map_relabel_pasv (c : Conn) :
    ((enterPassiveMode c).2.2).map relabelAction = (enterPassiveMode c).2.2 := by
  have hline : ((String.intercalate " " ["PASV"]).toList ++ ['\r', '\n']).take 4 ≠
      "RETR".toList := by decide
  unfold enterPassiveMode
  split
  · rename_i e c1 a1 h1
    have he := map_relabel_egr c enteringPassiveMode ["PASV"] hline
    rw [h1] at he
    exact he
  · rename_i resp c1 a1 h1
    have he := map_relabel_egr c enteringPassiveMode ["PASV"] hline
    rw [h1] at he; dsimp only at he
    split
    · exact he
    · rename_i addr haddr
      split
      · rename_i e c2 a2 h2
        have hd := dialData_actions_relabel c1 addr
        rw [h2] at hd; dsimp only at hd
        simp [List.map_append, he, hd]
      · rename_i c2 a2 h2
        have hd := dialData_actions_relabel c1 addr
        rw [h2] at hd; dsimp only at hd
        simp [List.map_append, he, hd]

theorem send_err_transport (c : Conn) (ws : List String) (e : Err)
    (h : (send c ws).1 = some e) : relabelErr e = e := by
  simp only [send] at h
  rw [Option.map_eq_some'] at h
  obtain ⟨n, hn, he⟩ := h
  rw [← he]
  rfl

theorem receive_err_transport (c : Conn) (e : Err)
    (h : (receive c).1 = Except.error e) : relabelErr e = e := by
  unfold receive at h
  split at h
  · dsimp only at h
    rw [Except.error.injEq] at h
    rw [← h]
    rfl
  · exact absurd h (by simp)

theorem egr_err_fixed (c : Conn) (ec : responseCode) (args : List String)
    (hargs : args.headD "" ≠ "RETR") :
    ∀ e, (executeGetResponse c ec args).1 = Except.error e → relabelErr e = e := by
  intro e he
  unfold executeGetResponse at he
  split at he
  · rename_i e1 c1 a1 h1
    dsimp only at he
    rw [Except.error.injEq] at he
    rw [← he]
    exact send_err_transport c args e1 (by rw [h1])
  · rename_i c1 a1 h1
    split at he
    · rename_i e1 c2 a2 h2
      dsimp only at he
      rw [Except.error.injEq] at he
      rw [← he]
      exact receive_err_transport c1 e1 (by rw [h2])
    · rename_i resp code c2 a2 h2
      split at he
      · exact absurd he (by simp)
      · dsimp only at he
        rw [Except.error.injEq] at he
        rw [← he, relabelErr, if_neg hargs]

theorem execute_err_fixed (c : Conn) (ec : responseCode) (args : List String)
    (hargs : args.headD "" ≠ "RETR") :
    ∀ e, (execute c ec args).1 = some e → relabelErr e = e := by
  intro e he
  unfold execute at he
  split at he
  · rename_i e1 c1 a1 h1
    dsimp only at he
    rw [Option.some.injEq] at he
    rw [← he]
    exact egr_err_fixed c ec args hargs e1 (by rw [h1])
  · exact absurd he (by simp)

theorem sbt_err_fixed (c : Conn) :
    ∀ e, (setBinaryTransfer c).1 = some e → relabelErr e = e := by
  intro e he
  unfold setBinaryTransfer setTransferTypeTo at he
  split at he
  · exact absurd he (by simp)
  · split at he
    · exact absurd he (by simp)
    · rename_i e1 c1 a1 h1
      dsimp only at he
      rw [Option.some.injEq] at he
      rw [← he]
      exact execute_err_fixed c commandOk ["TYPE", "I"] (by decide) e1 (by rw [h1])

theorem getAddress_err (msg : List Char) (e : Err)
    (h : getAddressOfPasvResponse msg = Except.error e) :
    e = Err.message "address extraction" msg := by
  unfold getAddressOfPasvResponse at h
  split at h
  · rw [Except.error.injEq] at h
    exact h.symm
  · exact absurd h (by simp)

theorem pasv_err_fixed (c : Conn) :
    ∀ e, (enterPassiveMode c).1 = Except.error e → relabelErr e = e := by
  intro e he
  unfold enterPassiveMode at he
  split at he
  · rename_i e1 c1 a1 h1
    dsimp only at he
    rw [Except.error.injEq] at he
    rw [← he]
    exact egr_err_fixed c enteringPassiveMode ["PASV"] (by decide) e1 (by rw [h1])
  · rename_i resp c1 a1 h1
    split at he
    · rename_i e1 haddr
      dsimp only at he
      rw [Except.error.injEq] at he
      rw [← he, getAddress_err resp e1 haddr]
      simp [relabelErr]
    · rename_i addr haddr
      split at he
      · rename_i e1 c2 a2 h2
        dsimp only at he
        rw [Except.error.injEq] at he
        rw [← he]
        unfold dialData at h2
        split at h2
        · rename_i n rest h3
          rw [Prod.mk.injEq] at h2
          obtain ⟨h21, h22⟩ := h2
          rw [Option.some.injEq] at h21
          rw [← h21]
          rfl
        · rw [Prod.mk.injEq] at h2
          exact absurd h2.1 (by simp)
      · exact absurd he (by simp)

theorem send_same_words (c : Conn) (ws1 ws2 : List String) (r : Option Err) (c2 : Conn)
    (a : List Action) (h : send c ws1 = (r, c2, a)) :
    send c ws2 =
      (r, c2, [Action.sent ((String.intercalate " " ws2).toList ++ ['\r', '\n'])]) ∧
    a = [Action.sent ((String.intercalate " " ws1).toList ++ ['\r', '\n'])] := by
  unfold send at h ⊢
  dsimp only at h ⊢
  rw [Prod.mk.injEq, Prod.mk.injEq] at h
  exact ⟨by rw [h.1, h.2.1], h.2.2.symm⟩

theorem copy_same_dir (c : Conn) (d1 d2 : CopyDir) (r : Option Err) (c2 : Conn)
    (a : List Action) (h : copyData c d1 = (r, c2, a)) :
    copyData c d2 = (r, c2, [Action.copiedData d2]) ∧ a = [Action.copiedData d1] := by
  unfold copyData at h ⊢
  dsimp only at h ⊢
  rw [Prod.mk.injEq, Prod.mk.injEq] at h
  exact ⟨by rw [h.1, h.2.1], h.2.2.symm⟩

theorem intercalate_two (cmd arg : String) :
    (String.intercalate " " [cmd, arg]).toList = cmd.toList ++ ' ' :: arg.toList := by
  have h1 : String.intercalate " " [cmd, arg] = cmd ++ " " ++ arg := rfl
  rw [h1]
  show (cmd ++ " " ++ arg).data = cmd.data ++ ' ' :: arg.data
  rw [String.data_append, String.data_append]
  show cmd.data ++ [' '] ++ arg.data = cmd.data ++ ' ' :: arg.data
  simp

theorem relabel_line_RETR (path : String) :
    (String.intercalate " " ["STOR", path]).data ++ ['\r', '\n'] =
      if List.take 4 ((String.intercalate " " ["RETR", path]).data ++ ['\r', '\n']) =
          ['R', 'E', 'T', 'R'] then
        'S' :: 'T' :: 'O' :: 'R' ::
          List.drop 4 ((String.intercalate " " ["RETR", path]).data ++ ['\r', '\n'])
      else (String.intercalate " " ["RETR", path]).data ++ ['\r', '\n'] := by
  have h1 : (String.intercalate " " ["RETR", path]).data ++ ['\r', '\n'] =
      'R' :: 'E' :: 'T' :: 'R' :: (' ' :: (path.toList ++ ['\r', '\n'])) := by
    have h := intercalate_two "RETR" path
    show (String.intercalate " " ["RETR", path]).toList ++ _ = _
    rw [h]
    simp
  have h2 : (String.intercalate " " ["STOR", path]).data ++ ['\r', '\n'] =
      'S' :: 'T' :: 'O' :: 'R' :: (' ' :: (path.toList ++ ['\r', '\n'])) := by
    have h := intercalate_two "STOR" path
    show (String.intercalate " " ["STOR", path]).toList ++ _ = _
    rw [h]
    simp
  rw [h1, h2]
  simp

theorem closeData_actions (c : Conn) : (closeData c).2.2 = [Action.closedData] := by
  simp [closeData]

theorem closeData_err_transport (c : Conn) (e : Err) (h : (closeData c).1 = some e) :
    relabelErr e = e := by
  simp only [closeData] at h
  rw [Option.map_eq_some'] at h
  obtain ⟨n, hn, he⟩ := h
  rw [← he]
  rfl

theorem copyData_err_transport (c : Conn) (d : CopyDir) (e : Err)
    (h : (copyData c d).1 = some e) : relabelErr e = e := by
  simp only [copyData] at h
  rw [Option.map_eq_some'] at h
  obtain ⟨n, hn, he⟩ := h
  rw [← he]
  rfl

/-- C8 (amended): for every nonempty path, `Upload` performs exactly the run
of `Download` with the command word `RETR` replaced by `STOR` in the sent
command line and in any protocol-error value, and the direction of the byte
copy reversed; the state evolution and every other action and error agree
exactly. (For the empty path the two differ beyond the command word, see the
counterexample.) -/
theorem upload_is_relabelled_download (c : Conn) (path : String) (hp : path ≠ "") :
    Upload c path =
      (relabelResult (Download c path).1, (Download c path).2.1,
        ((Download c path).2.2).map relabelAction) := by
  have hsw : ∀ cn : Conn, sendWithoutEmptyString cn "STOR" path = send cn ["STOR", path] :=
    fun cn => by rw [sendWithoutEmptyString, if_neg hp]
  rcases h1 : setBinaryTransfer c with ⟨r1, c1, a1⟩
  have hmap1 := map_relabel_sbt c
  rw [h1] at hmap1
  dsimp only at hmap1
  rcases r1 with _ | e1
  · rcases h2 : enterPassiveMode c1 with ⟨r2, c2, a2⟩
    have hmap2 := map_relabel_pasv c1
    rw [h2] at hmap2
    dsimp only at hmap2
    rcases r2 with e2 | u
    · have hfix2 := pasv_err_fixed c1 e2 (by rw [h2])
      simp [Upload, upload, Download, h1, h2, relabelResult, hfix2, List.map_append,
        hmap1, hmap2]
    · rcases h3 : send c2 ["RETR", path] with ⟨r3, c3, a3⟩
      obtain ⟨h3s, ha3⟩ := send_same_words c2 ["RETR", path] ["STOR", path] r3 c3 a3 h3
      rcases r3 with _ | e3
      · rcases h4 : receive c3 with ⟨r4, c4, a4⟩
        have hmap4 := map_relabel_receive c3
        rw [h4] at hmap4
        dsimp only at hmap4
        rcases r4 with e4 | rc
        · have hfix4 := receive_err_transport c3 e4 (by rw [h4])
          rcases h5 : closeData c4 with ⟨r5, c5, a5⟩
          have ha5 : a5 = [Action.closedData] := by
            have h := closeData_actions c4
            rw [h5] at h
            exact h
          simp [Upload, upload, Download, hsw, h1, h2, h3, h3s, h4, h5, relabelResult,
            hfix4, List.map_append, hmap1, hmap2, ha3, relabel_line_RETR, hmap4, ha5,
            relabelAction]
        · obtain ⟨resp, code⟩ := rc
          by_cases hc : codeOk code = false
          · rcases h5 : closeData c4 with ⟨r5, c5, a5⟩
            have ha5 : a5 = [Action.closedData] := by
              have h := closeData_actions c4
              rw [h5] at h
              exact h
            simp [Upload, upload, Download, hsw, h1, h2, h3, h3s, h4, h5, hc,
              relabelResult, relabelErr, List.map_append, hmap1, hmap2, ha3,
              relabel_line_RETR, hmap4, ha5, relabelAction]
          · rcases h5 : copyData c4 CopyDir.fromDataConn with ⟨r5, c5, a5⟩
            obtain ⟨h5s, ha5⟩ :=
              copy_same_dir c4 CopyDir.fromDataConn CopyDir.toDataConn r5 c5 a5 h5
            rcases r5 with _ | e5
            · rcases h6 : closeData c5 with ⟨r6, c6, a6⟩
              have ha6 : a6 = [Action.closedData] := by
                have h := closeData_actions c5
                rw [h6] at h
                exact h
              rcases r6 with _ | e6
              · rcases h7 : receive c6 with ⟨r7, c7, a7⟩
                have hmap7 := map_relabel_receive c6
                rw [h7] at hmap7
                dsimp only at hmap7
                rcases r7 with e7 | rc2
                · have hfix7 := receive_err_transport c6 e7 (by rw [h7])
                  simp [Upload, upload, Download, hsw, h1, h2, h3, h3s, h4, h5, h5s, h6,
                    h7, hc, relabelResult, hfix7, List.map_append, hmap1, hmap2, ha3,
                    relabel_line_RETR, hmap4, ha5, ha6, hmap7, relabelAction]
                · obtain ⟨resp2, code2⟩ := rc2
                  by_cases hc2 : codeOk code2 = false
                  · simp [Upload, upload, Download, hsw, h1, h2, h3, h3s, h4, h5, h5s,
                      h6, h7, hc, hc2, relabelResult, relabelErr, List.map_append,
                      hmap1, hmap2, ha3, relabel_line_RETR, hmap4, ha5, ha6, hmap7,
                      relabelAction]
                  · simp [Upload, upload, Download, hsw, h1, h2, h3, h3s, h4, h5, h5s,
                      h6, h7, hc, hc2, relabelResult, List.map_append, hmap1, hmap2,
                      ha3, relabel_line_RETR, hmap4, ha5, ha6, hmap7, relabelAction]
              · have hfix6 := closeData_err_transport c5 e6 (by rw [h6])
                simp [Upload, upload, Download, hsw, h1, h2, h3, h3s, h4, h5, h5s, h6,
                  hc, relabelResult, hfix6, List.map_append, hmap1, hmap2, ha3,
                  relabel_line_RETR, hmap4, ha5, ha6, relabelAction]
            · have hfix5 := copyData_err_transport c4 CopyDir.fromDataConn e5 (by rw [h5])
              rcases h6 : closeData c5 with ⟨r6, c6, a6⟩
              have ha6 : a6 = [Action.closedData] := by
                have h := closeData_actions c5
                rw [h6] at h
                exact h
              simp [Upload, upload, Download, hsw, h1, h2, h3, h3s, h4, h5, h5s, h6, hc,
                relabelResult, hfix5, List.map_append, hmap1, hmap2, ha3,
                relabel_line_RETR, hmap4, ha5, ha6, relabelAction]
      · have hfix3 := send_err_transport c2 ["RETR", path] e3 (by rw [h3])
        rcases h4 : closeData c3 with ⟨r4, c4, a4⟩
        have ha4 : a4 = [Action.closedData] := by
          have h := closeData_actions c3
          rw [h4] at h
          exact h
        simp [Upload, upload, Download, hsw, h1, h2, h3, h3s, h4, relabelResult, hfix3,
          List.map_append, hmap1, hmap2, ha3, relabel_line_RETR, ha4, relabelAction]
  · have hfix1 := sbt_err_fixed c e1 (by rw [h1])
    simp [Upload, upload, Download, h1, relabelResult, hfix1, hmap1]

/-- A fully successful transfer environment. -/
def transferEnv : Conn :=
  { transferType := transferBinary
  , sends := [none, none]
  , recvs := [Except.ok ("227 =(1,2,3,4,5,6)\r\n".toList), Except.ok ("150 ok\r\n".toList),
              Except.ok ("226 done\r\n".toList)]
  , dials := [none]
  , copies := [none]
  , closes := [none] }

/-- C8 witness: the relabelling equation instantiated at a concrete
environment and a nonempty path. -/
theorem upload_is_relabelled_download_witness :
    Upload transferEnv "f" =
      (relabelResult (Download transferEnv "f").1, (Download transferEnv "f").2.1,
        ((Download transferEnv "f").2.2).map relabelAction) :=
  upload_is_relabelled_download transferEnv "f" (by decide)

/-- The payload of a sent action. -/
def sentLine : Action → Option (List Char)
  | Action.sent l => some l
  | _ => none

/-- C8 counterexample: for the empty path the two operations do not differ
only in the command word — `Download` sends `RETR ` followed by CR LF (a
trailing space after the word) while `Upload` sends a bare `STOR` followed by
CR LF, so the bytes after the 4-byte command word disagree. -/
theorem upload_download_empty_path_differ :
    (((Download transferEnv "").2.2.filterMap sentLine).getD 1 []) = "RETR \r\n".toList ∧
    (((Upload transferEnv "").2.2.filterMap sentLine).getD 1 []) = "STOR\r\n".toList ∧
    ("RETR \r\n".toList).drop 4 ≠ ("STOR\r\n".toList).drop 4 := by
  decide

/-! ## Status/System text extraction (`removeControlSymbols`) -/

/-- Go `strings.TrimSuffix(s, "\r\n")`. -/
def trimSuffixCRLF (s : List Char) : List Char :=
  if s.drop (s.length - 2) = ['\r', '\n'] then s.take (s.length - 2) else s

/-- Go `strings.LastIndex(s, "\r\n")` as an optional index. -/
def lastIndexCRLF : List Char → Option Nat
  | [] => none
  | c :: rest =>
    match lastIndexCRLF rest with
    | some i => some (i + 1)
    | none => if c = '\r' ∧ rest.headD ' ' = '\n' then some 0 else none

/-- Source `removeControlSymbols`: strip the leading 4 bytes and a trailing
CR LF; for a multi-line reply additionally remove the 4 bytes after the last
interior CR LF (the final line's code and space) and trim a trailing CR LF
again. Go's `-1` from `LastIndex` is kept as an `Int`. -/
def removeControlSymbols (resp : List Char) : List Char :=
  let noCodeOrNewLine := trimSuffixCRLF (resp.drop 4)
  if isSingleLineResponse resp then noCodeOrNewLine
  else
    let lastLineStart : Int :=
      match lastIndexCRLF noCodeOrNewLine with
      | some i => (i : Int)
      | none => -1
    let startPart := noCodeOrNewLine.take (lastLineStart + 2).toNat
    let endPart := noCodeOrNewLine.drop (lastLineStart + 6).toNat
    trimSuffixCRLF (startPart ++ endPart)

/-- Source `StatusType` constants. -/
def GeneralStatus : String := "status"

def FileStatus : String := "file status"

def DirectoryStatus : String := "directory status"

/-- Source `statusTypeOfCode` (`(typ, ok)` becomes an option). -/
def statusTypeOfCode (code : responseCode) : Option String :=
  if code = systemStatusOrHelpReply then some GeneralStatus
  else if code = directoryStatus then some DirectoryStatus
  else if code = fileStatus then some FileStatus
  else none

/-- Source `System`. -/
def System (c : Conn) : Except Err (List Char) × Conn × List Action :=
  match executeGetResponse c systemName ["SYST"] with
  | (Except.error e, c1, a1) => (Except.error e, c1, a1)
  | (Except.ok resp, c1, a1) => (Except.ok (removeControlSymbols resp), c1, a1)

/-- Source `StatusOf`. -/
def StatusOf (c : Conn) (path : String) :
    Except Err (String × List Char) × Conn × List Action :=
  match sendWithoutEmptyString c "STAT" path with
  | (some e, c1, a1) => (Except.error e, c1, a1)
  | (none, c1, a1) =>
    match receive c1 with
    | (Except.error e, c2, a2) => (Except.error e, c2, a1 ++ a2)
    | (Except.ok (resp, code), c2, a2) =>
      match statusTypeOfCode code with
      | some typ => (Except.ok (typ, removeControlSymbols resp), c2, a1 ++ a2)
      | none => (Except.error (Err.message "STAT" resp), c2, a1 ++ a2)

/-- Source `Status`. -/
def Status (c : Conn) : Except Err (String × List Char) × Conn × List Action :=
  StatusOf c ""

/-- The concatenation of lines each terminated by CR LF (the interior of a
multi-line reply). -/
def joinLinesCRLF (mid : List (List Char)) : List Char :=
  (mid.map (fun l => l ++ ['\r', '\n'])).flatten

theorem trimSuffixCRLF_append (x : List Char) : trimSuffixCRLF (x ++ ['\r', '\n']) = x := by
  have hlen : (x ++ ['\r', '\n']).length - 2 = x.length := by simp
  unfold trimSuffixCRLF
  rw [hlen, List.drop_left, if_pos rfl, List.take_left]

theorem trimSuffixCRLF_noop (s : List Char) (h : s.drop (s.length - 2) ≠ ['\r', '\n']) :
    trimSuffixCRLF s = s := by
  unfold trimSuffixCRLF
  rw [if_neg h]

theorem lastIndexCRLF_cons (c : Char) (rest : List Char) :
    lastIndexCRLF (c :: rest) =
      match lastIndexCRLF rest with
      | some i => some (i + 1)
      | none => if c = '\r' ∧ rest.headD ' ' = '\n' then some 0 else none := rfl

theorem lastIndexCRLF_cons_some (c : Char) (rest : List Char) (i : Nat)
    (h : lastIndexCRLF rest = some i) :
    lastIndexCRLF (c :: rest) = some (i + 1) := by
  rw [lastIndexCRLF_cons, h]

theorem lastIndexCRLF_cons_none (c : Char) (rest : List Char)
    (h : lastIndexCRLF rest = none) :
    lastIndexCRLF (c :: rest) =
      if c = '\r' ∧ rest.headD ' ' = '\n' then some 0 else none := by
  rw [lastIndexCRLF_cons, h]

theorem lastIndexCRLF_append_some (x y : List Char) (i : Nat)
    (h : lastIndexCRLF y = some i) :
    lastIndexCRLF (x ++ y) = some (x.length + i) := by
  induction x with
  | nil => simpa using h
  | cons c rest ih =>
    rw [List.cons_append, lastIndexCRLF_cons_some c (rest ++ y) (rest.length + i) ih]
    simp only [List.length_cons, Option.some.injEq]
    omega

theorem lastIndexCRLF_crlf (z : List Char) (h : lastIndexCRLF z = none) :
    lastIndexCRLF ('\r' :: '\n' :: z) = some 0 := by
  have h2 : lastIndexCRLF ('\n' :: z) = none := by
    rw [lastIndexCRLF_cons_none _ _ h, if_neg (by simp)]
  rw [lastIndexCRLF_cons_none _ _ h2, if_pos ⟨rfl, rfl⟩]

theorem digit_ne_cr (c : Char) (h : c.isDigit = true) : c ≠ '\r' := by
  intro he
  rw [he] at h
  exact absurd h (by decide)

theorem lastIndexCRLF_code_tail (c1 c2 c3 : Char) (tN : List Char)
    (h1 : c1.isDigit = true) (h2 : c2.isDigit = true) (h3 : c3.isDigit = true)
    (hN : lastIndexCRLF tN = none) :
    lastIndexCRLF (c1 :: c2 :: c3 :: ' ' :: tN) = none := by
  have hsp : lastIndexCRLF (' ' :: tN) = none := by
    rw [lastIndexCRLF_cons_none _ _ hN, if_neg (by simp)]
  have s3 : lastIndexCRLF (c3 :: ' ' :: tN) = none := by
    rw [lastIndexCRLF_cons_none _ _ hsp, if_neg]
    simp [digit_ne_cr c3 h3]
  have s2 : lastIndexCRLF (c2 :: c3 :: ' ' :: tN) = none := by
    rw [lastIndexCRLF_cons_none _ _ s3, if_neg]
    simp [digit_ne_cr c2 h2]
  rw [lastIndexCRLF_cons_none _ _ s2, if_neg]
  simp [digit_ne_cr c1 h1]

theorem lastIndexCRLF_join (mid : List (List Char)) (z : List Char)
    (hz : lastIndexCRLF z = none) (hne : mid ≠ []) :
    ∃ m, (joinLinesCRLF mid).length = m + 2 ∧
      lastIndexCRLF (joinLinesCRLF mid ++ z) = some m := by
  induction mid with
  | nil => exact absurd rfl hne
  | cons l mid2 ih =>
    rcases hm2 : mid2 with _ | ⟨l2, mid3⟩
    · refine ⟨l.length, by simp [joinLinesCRLF], ?_⟩
      have hinner := lastIndexCRLF_crlf z hz
      have := lastIndexCRLF_append_some l ('\r' :: '\n' :: z) 0 hinner
      simpa [joinLinesCRLF] using this
    · obtain ⟨m2, hlen2, hidx2⟩ := ih (by simp [hm2])
      rw [← hm2]
      have hjoin_cons : joinLinesCRLF (l :: mid2) = (l ++ ['\r', '\n']) ++ joinLinesCRLF mid2 := by
        simp [joinLinesCRLF]
      refine ⟨l.length + 2 + m2, ?_, ?_⟩
      · rw [hjoin_cons]
        simp only [List.length_append, hlen2, List.length_cons, List.length_nil]
        omega
      have hstep : lastIndexCRLF ('\r' :: '\n' :: (joinLinesCRLF mid2 ++ z)) =
          some (2 + m2) := by
        have := lastIndexCRLF_append_some ['\r', '\n'] (joinLinesCRLF mid2 ++ z) m2 hidx2
        simpa using this
      have := lastIndexCRLF_append_some l ('\r' :: '\n' :: (joinLinesCRLF mid2 ++ z))
        (2 + m2) hstep
      have hshape : joinLinesCRLF (l :: mid2) ++ z =
          l ++ ('\r' :: '\n' :: (joinLinesCRLF mid2 ++ z)) := by
        simp [joinLinesCRLF]
      rw [hshape]
      simpa [Nat.add_assoc] using this

theorem ends_crlf_isSome (u : List Char) :
    lastIndexCRLF (u ++ ['\r', '\n']) = some u.length := by
  have h0 : lastIndexCRLF ('\r' :: '\n' :: ([] : List Char)) = some 0 :=
    lastIndexCRLF_crlf [] rfl
  have := lastIndexCRLF_append_some u ['\r', '\n'] 0 h0
  simpa using this

/-- C10 helper: the single-line case of `removeControlSymbols`. -/
theorem removeControlSymbols_single (c1 c2 c3 : Char) (t : List Char) :
    removeControlSymbols (c1 :: c2 :: c3 :: ' ' :: (t ++ ['\r', '\n'])) = t := by
  have hsingle : isSingleLineResponse (c1 :: c2 :: c3 :: ' ' :: (t ++ ['\r', '\n'])) =
      true := by
    simp [isSingleLineResponse]
  simp [removeControlSymbols, hsingle, trimSuffixCRLF_append]

theorem take_append_len (x y : List Char) (n : Nat) (h : x.length = n) :
    (x ++ y).take n = x := by
  subst h
  exact List.take_left x y

theorem drop_append_len (x y : List Char) (n : Nat) (h : x.length = n) :
    (x ++ y).drop n = y := by
  subst h
  exact List.drop_left x y

theorem drop_append_add (x y : List Char) (k : Nat) :
    (x ++ y).drop (x.length + k) = y.drop k := by
  induction x with
  | nil => simp
  | cons c rest ih =>
    have harith : rest.length + 1 + k = (rest.length + k) + 1 := by omega
    rw [List.length_cons, List.cons_append, harith, List.drop_succ_cons]
    exact ih

theorem joinLinesCRLF_ends (mid : List (List Char)) (hne : mid ≠ []) :
    ∃ w, joinLinesCRLF mid = w ++ ['\n'] := by
  induction mid with
  | nil => exact absurd rfl hne
  | cons l mid2 ih =>
    by_cases h2 : mid2 = []
    · subst h2
      exact ⟨l ++ ['\r'], by simp [joinLinesCRLF]⟩
    · obtain ⟨w, hw⟩ := ih h2
      refine ⟨(l ++ ['\r', '\n']) ++ w, ?_⟩
      have hcons : joinLinesCRLF (l :: mid2) = (l ++ ['\r', '\n']) ++ joinLinesCRLF mid2 := by
        simp [joinLinesCRLF]
      rw [hcons, hw]
      simp [List.append_assoc]

theorem no_crlf_suffix (w tN : List Char) (htN : lastIndexCRLF tN = none) (hne : tN ≠ []) :
    ((w ++ ['\n']) ++ tN).drop (((w ++ ['\n']) ++ tN).length - 2) ≠ ['\r', '\n'] := by
  rcases tN with _ | ⟨a, tN1⟩
  · exact absurd rfl hne
  rcases tN1 with _ | ⟨b, tN2⟩
  · have hl : ((w ++ ['\n']) ++ [a]).length - 2 = w.length := by simp
    have hsh : (w ++ ['\n']) ++ [a] = w ++ ['\n', a] := by simp
    rw [hl, hsh, List.drop_left]
    simp
  · intro hcon
    have hlen : ((w ++ ['\n']) ++ (a :: b :: tN2)).length - 2 =
        (w ++ ['\n']).length + ((a :: b :: tN2).length - 2) := by
      simp only [List.length_append, List.length_cons, List.length_nil]
      omega
    rw [hlen, drop_append_add] at hcon
    have hsplit :=
      (List.take_append_drop ((a :: b :: tN2).length - 2) (a :: b :: tN2)).symm
    rw [hcon] at hsplit
    have hsome := ends_crlf_isSome ((a :: b :: tN2).take ((a :: b :: tN2).length - 2))
    rw [← hsplit] at hsome
    rw [htN] at hsome
    exact Option.noConfusion hsome

/-- C10 helper: the multi-line case of `removeControlSymbols` with a nonempty
final-line text: the first line's 4 leading bytes and the final line's 4
leading bytes are removed and the trailing CR LF stripped, interior line
breaks preserved. -/
theorem removeControlSymbols_multi (c1 c2 c3 : Char) (t1 tN : List Char)
    (mid : List (List Char))
    (hd1 : c1.isDigit = true) (hd2 : c2.isDigit = true) (hd3 : c3.isDigit = true)
    (htN : lastIndexCRLF tN = none) (htNne : tN ≠ []) :
    removeControlSymbols
        (c1 :: c2 :: c3 :: '-' ::
          (t1 ++ '\r' :: '\n' ::
            (joinLinesCRLF mid ++ (c1 :: c2 :: c3 :: ' ' :: (tN ++ ['\r', '\n']))))) =
      t1 ++ '\r' :: '\n' :: (joinLinesCRLF mid ++ tN) := by
  have hcode : lastIndexCRLF (c1 :: c2 :: c3 :: ' ' :: tN) = none :=
    lastIndexCRLF_code_tail c1 c2 c3 tN hd1 hd2 hd3 htN
  have hidx : lastIndexCRLF
      (t1 ++ '\r' :: '\n' :: (joinLinesCRLF mid ++ (c1 :: c2 :: c3 :: ' ' :: tN))) =
      some (t1.length + (joinLinesCRLF mid).length) := by
    by_cases hm : mid = []
    · subst hm
      have h0 := lastIndexCRLF_crlf (c1 :: c2 :: c3 :: ' ' :: tN) hcode
      have h1 := lastIndexCRLF_append_some t1 _ 0 h0
      simpa [joinLinesCRLF] using h1
    · obtain ⟨m, hmlen, hmidx⟩ :=
        lastIndexCRLF_join mid (c1 :: c2 :: c3 :: ' ' :: tN) hcode hm
      have hstep : lastIndexCRLF
          ('\r' :: '\n' :: (joinLinesCRLF mid ++ (c1 :: c2 :: c3 :: ' ' :: tN))) =
          some (2 + m) := by
        have h := lastIndexCRLF_append_some ['\r', '\n'] _ m hmidx
        simpa using h
      have hfull := lastIndexCRLF_append_some t1 _ (2 + m) hstep
      rw [hfull, hmlen]
      simp only [Option.some.injEq]
      omega
  have hB : trimSuffixCRLF
      ((c1 :: c2 :: c3 :: '-' ::
        (t1 ++ '\r' :: '\n' ::
          (joinLinesCRLF mid ++ (c1 :: c2 :: c3 :: ' ' :: (tN ++ ['\r', '\n']))))).drop 4) =
      t1 ++ '\r' :: '\n' :: (joinLinesCRLF mid ++ (c1 :: c2 :: c3 :: ' ' :: tN)) := by
    show trimSuffixCRLF
        (t1 ++ '\r' :: '\n' ::
          (joinLinesCRLF mid ++ (c1 :: c2 :: c3 :: ' ' :: (tN ++ ['\r', '\n'])))) = _
    have hY : t1 ++ '\r' :: '\n' ::
        (joinLinesCRLF mid ++ (c1 :: c2 :: c3 :: ' ' :: (tN ++ ['\r', '\n']))) =
        (t1 ++ '\r' :: '\n' :: (joinLinesCRLF mid ++ (c1 :: c2 :: c3 :: ' ' :: tN))) ++
          ['\r', '\n'] := by
      simp
    rw [hY, trimSuffixCRLF_append]
  have hsingle : isSingleLineResponse
      (c1 :: c2 :: c3 :: '-' ::
        (t1 ++ '\r' :: '\n' ::
          (joinLinesCRLF mid ++ (c1 :: c2 :: c3 :: ' ' :: (tN ++ ['\r', '\n']))))) = false := by
    simp [isSingleLineResponse]
  simp only [removeControlSymbols]
  rw [hB, hsingle]
  simp only [Bool.false_eq_true, if_false]
  rw [hidx]
  have h2 : (((t1.length + (joinLinesCRLF mid).length : Nat) : Int) + 2).toNat =
      t1.length + (joinLinesCRLF mid).length + 2 := by omega
  have h6 : (((t1.length + (joinLinesCRLF mid).length : Nat) : Int) + 6).toNat =
      t1.length + (joinLinesCRLF mid).length + 6 := by omega
  dsimp only
  rw [h2, h6]
  have htake : (t1 ++ '\r' :: '\n' ::
      (joinLinesCRLF mid ++ (c1 :: c2 :: c3 :: ' ' :: tN))).take
        (t1.length + (joinLinesCRLF mid).length + 2) =
      t1 ++ '\r' :: '\n' :: joinLinesCRLF mid := by
    have hass : t1 ++ '\r' :: '\n' :: (joinLinesCRLF mid ++ (c1 :: c2 :: c3 :: ' ' :: tN)) =
        (t1 ++ '\r' :: '\n' :: joinLinesCRLF mid) ++ (c1 :: c2 :: c3 :: ' ' :: tN) := by
      simp
    rw [hass]
    exact take_append_len _ _ _ (by
      simp only [List.length_append, List.length_cons]
      omega)
  have hdropP : (t1 ++ '\r' :: '\n' ::
      (joinLinesCRLF mid ++ (c1 :: c2 :: c3 :: ' ' :: tN))).drop
        (t1.length + (joinLinesCRLF mid).length + 6) = tN := by
    have hass : t1 ++ '\r' :: '\n' :: (joinLinesCRLF mid ++ (c1 :: c2 :: c3 :: ' ' :: tN)) =
        ((t1 ++ '\r' :: '\n' :: joinLinesCRLF mid) ++ [c1, c2, c3, ' ']) ++ tN := by
      simp
    rw [hass]
    exact drop_append_len _ _ _ (by
      simp only [List.length_append, List.length_cons, List.length_nil]
      omega)
  rw [htake, hdropP]
  obtain ⟨w, hw⟩ : ∃ w, t1 ++ '\r' :: '\n' :: joinLinesCRLF mid = w ++ ['\n'] := by
    by_cases hm : mid = []
    · subst hm
      exact ⟨t1 ++ ['\r'], by simp [joinLinesCRLF]⟩
    · obtain ⟨w2, hw2⟩ := joinLinesCRLF_ends mid hm
      exact ⟨t1 ++ '\r' :: '\n' :: w2, by rw [hw2]; simp⟩
  rw [hw, trimSuffixCRLF_noop _ (no_crlf_suffix w tN htN htNne), ← hw]
  simp

/-- C10 (amended): for every well-formed single-line reply the extracted text
is the reply bytes after the first 4 with the trailing CR LF stripped; for
every well-formed multi-line reply whose final line has nonempty text it is
the reply with the first line's leading 4 bytes (code plus dash) and the
final line's leading 4 bytes (code plus space) removed and the trailing CR LF
stripped, embedded line breaks preserved (when the final line's text is empty
the code strips one additional CR LF, see the counterexample); `System` and
`StatusOf` return exactly this text for the reply they receive. -/
theorem status_text_extraction :
    (∀ (c1 c2 c3 : Char) (t : List Char),
      removeControlSymbols (c1 :: c2 :: c3 :: ' ' :: (t ++ ['\r', '\n'])) = t) ∧
    (∀ (c1 c2 c3 : Char) (t1 tN : List Char) (mid : List (List Char)),
      c1.isDigit = true → c2.isDigit = true → c3.isDigit = true →
      lastIndexCRLF tN = none → tN ≠ [] →
      removeControlSymbols
          (c1 :: c2 :: c3 :: '-' ::
            (t1 ++ '\r' :: '\n' ::
              (joinLinesCRLF mid ++ (c1 :: c2 :: c3 :: ' ' :: (tN ++ ['\r', '\n']))))) =
        t1 ++ '\r' :: '\n' :: (joinLinesCRLF mid ++ tN)) ∧
    (∀ (c : Conn) (resp : List Char) (s1 : List (Option Nat))
        (r1 : List (Except Nat (List Char))),
      c.sends = none :: s1 → c.recvs = Except.ok resp :: r1 →
      extractCode resp = systemName →
      (System c).1 = Except.ok (removeControlSymbols resp)) ∧
    (∀ (c : Conn) (path : String) (resp : List Char) (s1 : List (Option Nat))
        (r1 : List (Except Nat (List Char))) (typ : String),
      c.sends = none :: s1 → c.recvs = Except.ok resp :: r1 →
      statusTypeOfCode (extractCode resp) = some typ →
      (StatusOf c path).1 = Except.ok (typ, removeControlSymbols resp)) := by
  refine ⟨removeControlSymbols_single, removeControlSymbols_multi, ?_, ?_⟩
  · intro c resp s1 r1 hs hr hcode
    simp [System, executeGetResponse, send, receive, popO, popR, hs, hr, hcode]
  · intro c path resp s1 r1 typ hs hr htyp
    by_cases hpe : path = "" <;>
      simp [StatusOf, sendWithoutEmptyString, send, receive, popO, popR, hs, hr, htyp, hpe]

/-- Environment answering `SYST` with a 215 reply. -/
def sysEnv : Conn :=
  { transferType := transferASCII, sends := [none],
    recvs := [Except.ok ("215 UNIX\r\n".toList)], dials := [], copies := [], closes := [] }

/-- Environment answering `STAT` with a 211 reply. -/
def statEnv : Conn :=
  { transferType := transferASCII, sends := [none],
    recvs := [Except.ok ("211 ok\r\n".toList)], dials := [], copies := [], closes := [] }

/-- C10 witness: the four parts instantiated at concrete replies. -/
theorem status_text_extraction_witness :
    removeControlSymbols
        ('2' :: '1' :: '5' :: ' ' :: ("UNIX Type: L8".toList ++ ['\r', '\n'])) =
      "UNIX Type: L8".toList ∧
    removeControlSymbols
        ('2' :: '1' :: '1' :: '-' ::
          ("first".toList ++ '\r' :: '\n' ::
            (joinLinesCRLF [("mid".toList)] ++
              ('2' :: '1' :: '1' :: ' ' :: ("last".toList ++ ['\r', '\n']))))) =
      "first".toList ++ '\r' :: '\n' :: (joinLinesCRLF [("mid".toList)] ++ "last".toList) ∧
    (System sysEnv).1 = Except.ok (removeControlSymbols ("215 UNIX\r\n".toList)) ∧
    (StatusOf statEnv "x").1 =
      Except.ok (GeneralStatus, removeControlSymbols ("211 ok\r\n".toList)) :=
  ⟨status_text_extraction.1 '2' '1' '5' _,
   status_text_extraction.2.1 '2' '1' '1' _ _ _ (by decide) (by decide) (by decide)
     (by decide) (by decide),
   status_text_extraction.2.2.1 sysEnv _ [] [] rfl rfl (by decide),
   status_text_extraction.2.2.2 statEnv "x" _ [] [] GeneralStatus rfl rfl (by decide)⟩

/-- C10 counterexample: for the well-formed multi-line reply
`211-a\r\n211 \r\n` (final line text empty) the claim's rule predicts
`a\r\n` (both lines' leading 4 bytes removed, trailing CR LF stripped, the
embedded line break preserved), but the code returns `a`: the interior CR LF
is stripped as well. -/
theorem removeControlSymbols_empty_last_line :
    removeControlSymbols ("211-a\r\n211 \r\n".toList) = "a".toList ∧
    removeControlSymbols ("211-a\r\n211 \r\n".toList) ≠ "a\r\n".toList := by
  decide

end Ftp
